import Mathlib

/-!
# Verification of the RuC MIPS code generator and macro preprocessor

This file gives a shallow embedding, in Lean 4, of the two core subsystems of
the RuC compiler toolchain:

* the MIPS code generator (`src/libs/compiler/mipsgen.c`), namespace `Mips`;
* the macro preprocessor (`src/unnamed/part_000`, a file of the parser
  subsystem), namespace `Preproc`.

Pure fragments of the C code become Lean functions; stateful code becomes
explicit state passing over structures that mirror the C structs.  Machine
integers (`item_t`, `size_t`, `char32_t`) are modelled as `Int`/`Nat`; the
code under verification performs no wrap-around arithmetic on them.
External collaborators that are not part of the two source files (the
`universal_io` stream library, the symbol `storage`, the location tracker,
the AST accessors and the type table) are modelled from the specification
document; each such definition carries a doc comment saying so.

Definitions come first, theorems afterwards.
-/

set_option autoImplicit false

namespace RuC

/-! ## Part I: the MIPS code generator (`src/libs/compiler/mipsgen.c`) -/

namespace Mips

/-- `item_t`: the universal signed integer item type of the RuC tables. -/
abbrev item_t := Int

/-! Constants from the head of `mipsgen.c`. -/

def WORD_LENGTH : Nat := 4
def SP_SIZE : Nat := 4
def RA_SIZE : Nat := 4
def TEMP_FP_REG_AMOUNT : Nat := 12
def TEMP_REG_AMOUNT : Nat := 8
def ARG_REG_AMOUNT : Nat := 4
def PRESERVED_REG_AMOUNT : Nat := 8
def PRESERVED_FP_REG_AMOUNT : Nat := 10
def FROM_LVALUE : Bool := true

/-- `FUNC_DISPL_PRESEREVED = 4 + 4 + 5*4 + 8*4 + 4*4` (spelling from the source). -/
def FUNC_DISPL_PRESEREVED : Nat := 4 + 4 + 5 * 4 + 8 * 4 + 4 * 4

/-! The register enumeration `MIPS_REGISTER` is a C enum whose numeric values
are used in arithmetic (`R_T0 + i`, `reg - R_T0`), so registers are embedded
as their enum values, of type `item_t`. -/

def R_ZERO : item_t := 0
def R_AT : item_t := 1
def R_V0 : item_t := 2
def R_V1 : item_t := 3
def R_A0 : item_t := 4
def R_A1 : item_t := 5
def R_A2 : item_t := 6
def R_A3 : item_t := 7
def R_T0 : item_t := 8
def R_T1 : item_t := 9
def R_T2 : item_t := 10
def R_T3 : item_t := 11
def R_T4 : item_t := 12
def R_T5 : item_t := 13
def R_T6 : item_t := 14
def R_T7 : item_t := 15
def R_S0 : item_t := 16
def R_S1 : item_t := 17
def R_S2 : item_t := 18
def R_S3 : item_t := 19
def R_S4 : item_t := 20
def R_S5 : item_t := 21
def R_S6 : item_t := 22
def R_S7 : item_t := 23
def R_T8 : item_t := 24
def R_T9 : item_t := 25
def R_K0 : item_t := 26
def R_K1 : item_t := 27
def R_GP : item_t := 28
def R_SP : item_t := 29
def R_FP : item_t := 30
def R_RA : item_t := 31
def R_FV0 : item_t := 32
def R_FV1 : item_t := 33
def R_FV2 : item_t := 34
def R_FV3 : item_t := 35
def R_FA0 : item_t := 36
def R_FA1 : item_t := 37
def R_FA2 : item_t := 38
def R_FA3 : item_t := 39
def R_FT0 : item_t := 40
def R_FT1 : item_t := 41
def R_FT2 : item_t := 42
def R_FT3 : item_t := 43
def R_FT4 : item_t := 44
def R_FT5 : item_t := 45
def R_FT6 : item_t := 46
def R_FT7 : item_t := 47
def R_FT8 : item_t := 48
def R_FT9 : item_t := 49
def R_FT10 : item_t := 50
def R_FT11 : item_t := 51
def R_FS0 : item_t := 52
def R_FS1 : item_t := 53
def R_FS2 : item_t := 54
def R_FS3 : item_t := 55
def R_FS4 : item_t := 56
def R_FS5 : item_t := 57
def R_FS6 : item_t := 58
def R_FS7 : item_t := 59
def R_FS8 : item_t := 60
def R_FS9 : item_t := 61
def R_FS10 : item_t := 62
def R_FS11 : item_t := 63

/-- `INSTRUCTION` (`mips_instruction_t`): the instruction mnemonics emitted by
the generator. -/
inductive mips_instruction_t where
  | IC_MIPS_MOVE | IC_MIPS_LI | IC_MIPS_NOT
  | IC_MIPS_ADDI | IC_MIPS_SLL | IC_MIPS_SRA | IC_MIPS_ANDI | IC_MIPS_XORI | IC_MIPS_ORI
  | IC_MIPS_ADD | IC_MIPS_SUB | IC_MIPS_MUL | IC_MIPS_DIV | IC_MIPS_MOD
  | IC_MIPS_SLLV | IC_MIPS_SRAV | IC_MIPS_AND | IC_MIPS_XOR | IC_MIPS_OR
  | IC_MIPS_SW | IC_MIPS_LW
  | IC_MIPS_JR | IC_MIPS_JAL | IC_MIPS_J
  | IC_MIPS_BLEZ | IC_MIPS_BLTZ | IC_MIPS_BGEZ | IC_MIPS_BGTZ | IC_MIPS_BEQ | IC_MIPS_BNE
  | IC_MIPS_LA | IC_MIPS_NOP
  | IC_MIPS_ADD_S | IC_MIPS_SUB_S | IC_MIPS_MUL_S | IC_MIPS_DIV_S
  | IC_MIPS_S_S | IC_MIPS_L_S | IC_MIPS_LI_S | IC_MIPS_MOV_S
  | IC_MIPS_MFC_1 | IC_MIPS_MFHC_1
  | IC_MIPS_CVT_D_S | IC_MIPS_CVT_S_W | IC_MIPS_CVT_W_S
deriving DecidableEq, Repr

/-- `LABEL` (`mips_label_t`): kinds of assembler labels. -/
inductive mips_label_t where
  | L_FUNC | L_NEXT | L_FUNCEND | L_STRING | L_ELSE | L_END | L_BEGIN_CYCLE
deriving DecidableEq, Repr

/-- `struct label`. -/
structure label where
  kind : mips_label_t
  num : Nat
deriving DecidableEq, Repr

/-- Modelled from the spec (§4, glossary): the type/ident tables are external
collaborators of `mipsgen.c`; RuC types (`item_t` codes into a type table) are
embedded as a tagged sum.  `type_get_class` is the identity on this
representation, and the `TYPE_*` scalar codes are the scalar constructors. -/
inductive ruc_type where
  | boolean
  | character
  | integer
  | floating
  | array (element : ruc_type)
  | structure_ (members : List ruc_type)
  | pointer (element : ruc_type)
  | func (ret : ruc_type) (params : List ruc_type)
  | void

def TYPE_INTEGER : ruc_type := .integer
def TYPE_FLOATING : ruc_type := .floating
def TYPE_BOOLEAN : ruc_type := .boolean
def TYPE_CHARACTER : ruc_type := .character
def TYPE_ARRAY : ruc_type := .array .void

/-- Modelled from the spec: `type_is_floating` recognises the single-precision
floating type. -/
def type_is_floating : ruc_type → Bool
  | .floating => true
  | _ => false

/-- Modelled from the spec: `type_is_array(sx, t)`; the `sx` argument carries
the type table, which the tagged-sum representation makes unnecessary. -/
def type_is_array : ruc_type → Bool
  | .array _ => true
  | _ => false

/-- Modelled from the spec: `type_is_structure(sx, t)`. -/
def type_is_structure : ruc_type → Bool
  | .structure_ _ => true
  | _ => false

/-- Modelled from the spec: `type_get_class(sx, t)` maps a type code to its
class code; on the tagged-sum representation it is the identity. -/
def type_get_class (t : ruc_type) : ruc_type := t

/-- Modelled from the spec: `type_array_get_element_type(sx, t)`. -/
def type_array_get_element_type : ruc_type → ruc_type
  | .array e => e
  | t => t

mutual

/-- Modelled from the spec (§4.G): `type_size` counts words; a floating value
reports size 2 even though the target stores it in one word. -/
def type_size : ruc_type → Nat
  | .floating => 2
  | .structure_ ms => type_size_list ms
  | _ => 1

def type_size_list : List ruc_type → Nat
  | [] => 0
  | t :: ts => type_size t + type_size_list ts

end

/-- Modelled from the spec: `type_function_get_parameter_amount(sx, t)`. -/
def type_function_get_parameter_amount : ruc_type → Nat
  | .func _ ps => ps.length
  | _ => 0

/-- Modelled from the spec (§1, §4.I): the parts of the external `syntax`
structure that `mipsgen.c` reads — the output channel `sx->io` (a text sink,
modelled as the accumulated string `out`), the identifier table and the error
report counter. -/
structure syntax_model where
  out : String
  identTypes : List (Nat × ruc_type)
  identSpellings : List (Nat × String)
  identLocals : List Nat
  errors : Nat

/-- Modelled from the spec: `ident_get_type(sx, id)`. -/
def ident_get_type (sx : syntax_model) (id : Nat) : ruc_type :=
  (sx.identTypes.lookup id).getD .integer

/-- Modelled from the spec: `ident_get_spelling(sx, id)`. -/
def ident_get_spelling (sx : syntax_model) (id : Nat) : String :=
  (sx.identSpellings.lookup id).getD ""

/-- Modelled from the spec: `ident_is_local(sx, id)`. -/
def ident_is_local (sx : syntax_model) (id : Nat) : Bool :=
  sx.identLocals.contains id

/-- `struct information`: the code-generation state threaded through every
emitter.  `registers` is the busy-bit array `bool registers[24]`;
`displacements` models the `hash` keyed by identifier references, each entry
holding its value cells. -/
structure information where
  sx : syntax_model
  max_displ : Nat
  global_displ : Nat
  displacements : List (Nat × List item_t)
  next_register : item_t
  next_float_register : item_t
  label_num : Nat
  label_else : label
  label_continue : label
  label_break : label
  curr_function_ident : Nat
  registers : List Bool
  displ : item_t

/-- Append text to the generator's output channel (`uni_printf(info->sx->io, …)`). -/
def wr (info : information) (s : String) : information :=
  { info with sx := { info.sx with out := info.sx.out ++ s } }

/-- Modelled from the spec: `hash_add(&info->displacements, key, amount)`
creates an entry with `amount` zeroed value cells; the key doubles as the
index that `hash_set_by_index` receives. -/
def hash_add (h : List (Nat × List item_t)) (key : Nat) (amount : Nat) :
    List (Nat × List item_t) :=
  (key, List.replicate amount 0) :: h

/-- Modelled from the spec: `hash_set_by_index`. -/
def hash_set_by_index (h : List (Nat × List item_t)) (key : Nat) (i : Nat) (v : item_t) :
    List (Nat × List item_t) :=
  h.map fun e => if e.1 = key then (e.1, e.2.set i v) else e

/-- Modelled from the spec: `hash_get`. -/
def hash_get (h : List (Nat × List item_t)) (key : Nat) (i : Nat) : item_t :=
  (((h.lookup key).getD []).getD i 0)

/--
`get_register`: take the lowest-numbered free temporary GPR and mark it busy.
The source `assert`s that a free register exists; the model continues as the
code compiled with `NDEBUG` would (index `TEMP_REG_AMOUNT` when all busy).
-/
def get_register (info : information) : information × item_t :=
  let i := ((List.range TEMP_REG_AMOUNT).find? fun i => !(info.registers.getD i true)).getD
    TEMP_REG_AMOUNT
  ({ info with registers := info.registers.set i true }, (i : Int) + R_T0)

/--
`get_float_register`: take the lowest free temporary FPR, scanning busy-array
indices `8, 10, …, 18` (pairs, single-precision use).  As with `get_register`,
the exhaustion `assert` is modelled as the `NDEBUG` continuation.
-/
def get_float_register (info : information) : information × item_t :=
  let i := (((List.range 6).map fun k => 8 + 2 * k).find? fun i =>
    !(info.registers.getD i true)).getD (TEMP_FP_REG_AMOUNT + TEMP_REG_AMOUNT)
  ({ info with registers := info.registers.set i true }, (i : Int) + R_FT0 - 10)

/--
`free_register`: clear the busy bit of a temporary register.  The C `switch`
enumerates the contiguous enum ranges `R_T0…R_T7`, `R_T8…R_T9` and
`R_FT0…R_FT11` (busy-array bases 0, 8 and 10); every other register falls to
the `default:` case and nothing happens.
-/
def free_register (info : information) (reg : item_t) : information :=
  if R_T0 ≤ reg ∧ reg ≤ R_T7 then
    let idx := (reg - R_T0).toNat
    if info.registers.getD idx false then
      { info with registers := info.registers.set idx false }
    else
      info
  else if R_T8 ≤ reg ∧ reg ≤ R_T9 then
    let idx := (reg - R_T8).toNat + 8
    if info.registers.getD idx false then
      { info with registers := info.registers.set idx false }
    else
      info
  else if R_FT0 ≤ reg ∧ reg ≤ R_FT11 then
    let idx := (reg - R_FT0).toNat + 10
    if info.registers.getD idx false then
      { info with registers := info.registers.set idx false }
    else
      info
  else
    info

/-- `RVALUE_KIND`. -/
inductive rvalue_kind_t where
  | RVALUE_KIND_CONST
  | RVALUE_KIND_REGISTER
  | RVALUE_KIND_VOID
deriving DecidableEq, Repr

/-- The value union of `struct rvalue`.  A `%f`-printed floating constant is
carried as its printed form, which the generator only ever copies to the
output. -/
inductive rvalue_val where
  | reg_of (r : item_t)
  | int_of (n : item_t)
  | float_of (printed : String)
  | str_of (i : Nat)
deriving DecidableEq, Repr

/-- `struct rvalue`. -/
structure rvalue where
  kind : rvalue_kind_t
  type : ruc_type
  from_lvalue : Bool
  val : rvalue_val

/-- The union read `rval.val.reg_num`.  The source performs it only on
register-kind rvalues, where the union was last written through `reg_num`;
other constructors give the zero register, an arbitrary stand-in. -/
def rvalue.reg_num (rv : rvalue) : item_t :=
  match rv.val with
  | .reg_of r => r
  | _ => 0

/-- The union read `rval.val.int_val`. -/
def rvalue.int_val (rv : rvalue) : item_t :=
  match rv.val with
  | .int_of n => n
  | _ => 0

/-- `rvalue_one` from the source. -/
def rvalue_one : rvalue :=
  { kind := .RVALUE_KIND_CONST, type := TYPE_INTEGER, from_lvalue := false,
    val := .int_of 1 }

/-- `rvalue_negative_one` from the source. -/
def rvalue_negative_one : rvalue :=
  { kind := .RVALUE_KIND_CONST, type := TYPE_INTEGER, from_lvalue := false,
    val := .int_of (-1) }

/--
`free_rvalue`: release the register held by an rvalue — exactly when the
rvalue is register-kind and not marked `from_lvalue`.
-/
def free_rvalue (info : information) (rval : rvalue) : information :=
  if rval.kind = .RVALUE_KIND_REGISTER ∧ rval.from_lvalue = false then
    free_register info rval.reg_num
  else
    info

/-- `binary_t` (modelled from the external `operations.h`): the binary AST
operators that `mipsgen.c` switches over. -/
inductive binary_t where
  | BIN_MUL | BIN_DIV | BIN_REM | BIN_ADD | BIN_SUB
  | BIN_SHL | BIN_SHR | BIN_AND | BIN_XOR | BIN_OR
  | BIN_LT | BIN_GT | BIN_LE | BIN_GE | BIN_EQ | BIN_NE
  | BIN_LOG_AND | BIN_LOG_OR
  | BIN_ASSIGN
  | BIN_MUL_ASSIGN | BIN_DIV_ASSIGN | BIN_REM_ASSIGN | BIN_ADD_ASSIGN | BIN_SUB_ASSIGN
  | BIN_SHL_ASSIGN | BIN_SHR_ASSIGN | BIN_AND_ASSIGN | BIN_XOR_ASSIGN | BIN_OR_ASSIGN
  | BIN_COMMA
deriving DecidableEq, Repr

/-- `get_bin_instruction`: MIPS instruction for a binary operator, immediate or
register form. -/
def get_bin_instruction (operation_type : binary_t) (is_imm : Bool) : mips_instruction_t :=
  match operation_type with
  | .BIN_ADD_ASSIGN | .BIN_ADD => if is_imm then .IC_MIPS_ADDI else .IC_MIPS_ADD
  | .BIN_SUB_ASSIGN | .BIN_SUB => if is_imm then .IC_MIPS_ADDI else .IC_MIPS_SUB
  | .BIN_MUL_ASSIGN | .BIN_MUL => .IC_MIPS_MUL
  | .BIN_DIV_ASSIGN | .BIN_DIV => .IC_MIPS_DIV
  | .BIN_REM_ASSIGN | .BIN_REM => .IC_MIPS_MOD
  | .BIN_SHL_ASSIGN | .BIN_SHL => if is_imm then .IC_MIPS_SLL else .IC_MIPS_SLLV
  | .BIN_SHR_ASSIGN | .BIN_SHR => if is_imm then .IC_MIPS_SRA else .IC_MIPS_SRAV
  | .BIN_AND_ASSIGN | .BIN_AND => if is_imm then .IC_MIPS_ANDI else .IC_MIPS_AND
  | .BIN_XOR_ASSIGN | .BIN_XOR => if is_imm then .IC_MIPS_XORI else .IC_MIPS_XOR
  | .BIN_OR_ASSIGN | .BIN_OR => if is_imm then .IC_MIPS_ORI else .IC_MIPS_OR
  | .BIN_EQ => .IC_MIPS_BEQ
  | .BIN_NE => .IC_MIPS_BNE
  | .BIN_GT => .IC_MIPS_BGTZ
  | .BIN_LT => .IC_MIPS_BLTZ
  | .BIN_GE => .IC_MIPS_BGEZ
  | .BIN_LE => .IC_MIPS_BLEZ
  | _ => .IC_MIPS_NOP

/-- `mips_register_to_io`: print the assembler name of a register.  The C
`switch` is exhaustive over the enum; values outside it print nothing. -/
def mips_register_to_text (reg : item_t) : String :=
  (([(R_ZERO, "$0"), (R_AT, "$at"), (R_V0, "$v0"), (R_V1, "$v1"),
     (R_A0, "$a0"), (R_A1, "$a1"), (R_A2, "$a2"), (R_A3, "$a3"),
     (R_T0, "$t0"), (R_T1, "$t1"), (R_T2, "$t2"), (R_T3, "$t3"),
     (R_T4, "$t4"), (R_T5, "$t5"), (R_T6, "$t6"), (R_T7, "$t7"),
     (R_S0, "$s0"), (R_S1, "$s1"), (R_S2, "$s2"), (R_S3, "$s3"),
     (R_S4, "$s4"), (R_S5, "$s5"), (R_S6, "$s6"), (R_S7, "$s7"),
     (R_T8, "$t8"), (R_T9, "$t9"), (R_K0, "$k0"), (R_K1, "$k1"),
     (R_GP, "$gp"), (R_SP, "$sp"), (R_FP, "$fp"), (R_RA, "$ra"),
     (R_FV0, "$f0"), (R_FV1, "$f1"), (R_FV2, "$f2"), (R_FV3, "$f3"),
     (R_FT0, "$f4"), (R_FT1, "$f5"), (R_FT2, "$f6"), (R_FT3, "$f7"),
     (R_FT4, "$f8"), (R_FT5, "$f9"), (R_FT6, "$f10"), (R_FT7, "$f11"),
     (R_FT8, "$f16"), (R_FT9, "$f17"), (R_FT10, "$f18"), (R_FT11, "$f19"),
     (R_FA0, "$f12"), (R_FA1, "$f13"), (R_FA2, "$f14"), (R_FA3, "$f15"),
     (R_FS0, "$f20"), (R_FS1, "$f21"), (R_FS2, "$f22"), (R_FS3, "$f23"),
     (R_FS4, "$f24"), (R_FS5, "$f25"), (R_FS6, "$f26"), (R_FS7, "$f27"),
     (R_FS8, "$f28"), (R_FS9, "$f29"), (R_FS10, "$f30"), (R_FS11, "$f31")] :
    List (item_t × String)).lookup reg).getD ""

/-- `instruction_to_io`: print an instruction mnemonic. -/
def instruction_to_text : mips_instruction_t → String
  | .IC_MIPS_MOVE => "move"
  | .IC_MIPS_LI => "li"
  | .IC_MIPS_LA => "la"
  | .IC_MIPS_NOT => "not"
  | .IC_MIPS_ADDI => "addi"
  | .IC_MIPS_SLL => "sll"
  | .IC_MIPS_SRA => "sra"
  | .IC_MIPS_ANDI => "andi"
  | .IC_MIPS_XORI => "xori"
  | .IC_MIPS_ORI => "ori"
  | .IC_MIPS_ADD => "add"
  | .IC_MIPS_SUB => "sub"
  | .IC_MIPS_MUL => "mul"
  | .IC_MIPS_DIV => "div"
  | .IC_MIPS_MOD => "mod"
  | .IC_MIPS_SLLV => "sllv"
  | .IC_MIPS_SRAV => "srav"
  | .IC_MIPS_AND => "and"
  | .IC_MIPS_XOR => "xor"
  | .IC_MIPS_OR => "or"
  | .IC_MIPS_SW => "sw"
  | .IC_MIPS_LW => "lw"
  | .IC_MIPS_JR => "jr"
  | .IC_MIPS_JAL => "jal"
  | .IC_MIPS_J => "j"
  | .IC_MIPS_BLEZ => "blez"
  | .IC_MIPS_BLTZ => "bltz"
  | .IC_MIPS_BGEZ => "bgez"
  | .IC_MIPS_BGTZ => "bgtz"
  | .IC_MIPS_BEQ => "beq"
  | .IC_MIPS_BNE => "bne"
  | .IC_MIPS_NOP => "nop"
  | .IC_MIPS_ADD_S => "add.s"
  | .IC_MIPS_SUB_S => "sub.s"
  | .IC_MIPS_MUL_S => "mul.s"
  | .IC_MIPS_DIV_S => "div.s"
  | .IC_MIPS_S_S => "s.s"
  | .IC_MIPS_L_S => "l.s"
  | .IC_MIPS_LI_S => "li.s"
  | .IC_MIPS_MOV_S => "mov.s"
  | .IC_MIPS_MFC_1 => "mfc1"
  | .IC_MIPS_MFHC_1 => "mfhc1"
  | .IC_MIPS_CVT_D_S => "cvt.d.s"
  | .IC_MIPS_CVT_S_W => "cvt.s.w"
  | .IC_MIPS_CVT_W_S => "cvt.w.s"

/-- `to_code_2R`. -/
def to_code_2R (info : information) (instruction : mips_instruction_t)
    (fst_reg snd_reg : item_t) : information :=
  wr info ("\t" ++ instruction_to_text instruction ++ " " ++ mips_register_to_text fst_reg
    ++ ", " ++ mips_register_to_text snd_reg ++ "\n")

/-- `to_code_2R_I`. -/
def to_code_2R_I (info : information) (instruction : mips_instruction_t)
    (fst_reg snd_reg : item_t) (imm : item_t) : information :=
  wr info ("\t" ++ instruction_to_text instruction ++ " " ++ mips_register_to_text fst_reg
    ++ ", " ++ mips_register_to_text snd_reg ++ ", " ++ toString imm ++ "\n")

/-- `to_code_R_I_R`. -/
def to_code_R_I_R (info : information) (instruction : mips_instruction_t)
    (fst_reg : item_t) (imm : item_t) (snd_reg : item_t) : information :=
  wr info ("\t" ++ instruction_to_text instruction ++ " " ++ mips_register_to_text fst_reg
    ++ ", " ++ toString imm ++ "(" ++ mips_register_to_text snd_reg ++ ")\n")

/-- `to_code_R_I`. -/
def to_code_R_I (info : information) (instruction : mips_instruction_t)
    (reg : item_t) (imm : item_t) : information :=
  wr info ("\t" ++ instruction_to_text instruction ++ " " ++ mips_register_to_text reg
    ++ ", " ++ toString imm ++ "\n")

/-- `to_code_R`. -/
def to_code_R (info : information) (instruction : mips_instruction_t)
    (reg : item_t) : information :=
  wr info ("\t" ++ instruction_to_text instruction ++ " " ++ mips_register_to_text reg ++ "\n")

/-- The union read `rval.val.float_val`, carried in printed form. -/
def rvalue.float_printed (rv : rvalue) : String :=
  match rv.val with
  | .float_of s => s
  | _ => ""

/-- `rvalue_const_to_io`: print the value of a constant rvalue (scalar types
print their value, anything else prints nothing). -/
def rvalue_const_to_text (rval : rvalue) : String :=
  match rval.type with
  | .boolean | .character | .integer => toString rval.int_val
  | .floating => rval.float_printed
  | _ => ""

/-- `rvalue_to_io`: a constant prints its value, a register rvalue prints its
register name. -/
def rvalue_to_text (rval : rvalue) : String :=
  if rval.kind = .RVALUE_KIND_CONST then rvalue_const_to_text rval
  else mips_register_to_text rval.reg_num

/-- The label names printed by `emit_label`. -/
def label_to_text (lbl : label) : String :=
  (match lbl.kind with
    | .L_FUNC => "FUNC"
    | .L_NEXT => "NEXT"
    | .L_FUNCEND => "FUNCEND"
    | .L_STRING => "STRING"
    | .L_ELSE => "ELSE"
    | .L_END => "END"
    | .L_BEGIN_CYCLE => "BEGIN_CYCLE") ++ toString lbl.num

/-- `emit_label`. -/
def emit_label (info : information) (lbl : label) : information :=
  wr info (label_to_text lbl)

/-- `emit_label_declaration`. -/
def emit_label_declaration (info : information) (lbl : label) : information :=
  wr (emit_label info lbl) ":\n"

/-- `emit_unconditional_branch`. -/
def emit_unconditional_branch (info : information) (lbl : label) : information :=
  wr (emit_label (wr info ("\t" ++ instruction_to_text .IC_MIPS_J ++ " ")) lbl) "\n"

/-- `emit_conditional_branch`: a constant condition branches unconditionally
when zero (floating constants compare their value to `0.0`, modelled as the
printed form `"0.000000"` of `%f`); a register condition emits
`beq reg, $0, label`. -/
def emit_conditional_branch (info : information) (value : rvalue) (lbl : label) : information :=
  if value.kind = .RVALUE_KIND_CONST then
    let is_zero :=
      if type_is_floating (type_get_class value.type) then value.float_printed = "0.000000"
      else value.int_val = 0
    if is_zero then emit_unconditional_branch info lbl else info
  else
    wr (emit_label
      (wr info ("\t" ++ instruction_to_text .IC_MIPS_BEQ ++ " " ++ rvalue_to_text value ++ ", $0, "))
      lbl) "\n"

/-- The zero-initialised `(rvalue){ .kind = RVALUE_KIND_VOID }` literal. -/
def rvalue_void : rvalue :=
  { kind := .RVALUE_KIND_VOID, type := .void, from_lvalue := false, val := .int_of 0 }

/-- `emit_store_rvalue_to_rvalue`: store one rvalue into a register-kind
rvalue (`li`/`li.s` for constants, `move`/`mov.s` between distinct registers,
a comment when source and destination registers coincide). -/
def emit_store_rvalue_to_rvalue (info : information) (destination source : rvalue) :
    information :=
  if source.kind = .RVALUE_KIND_CONST then
    wr info ("\t"
      ++ instruction_to_text (if type_is_floating source.type then .IC_MIPS_LI_S else .IC_MIPS_LI)
      ++ " " ++ rvalue_to_text destination ++ ", " ++ rvalue_to_text source ++ "\n")
  else
    if destination.reg_num = source.reg_num then
      wr info ("\t# stays in register" ++ mips_register_to_text destination.reg_num ++ "\n")
    else
      match type_get_class source.type with
      | .boolean | .character | .integer | .array _ =>
        wr info ("\t" ++ instruction_to_text .IC_MIPS_MOVE ++ " " ++ rvalue_to_text destination
          ++ ", " ++ rvalue_to_text source ++ "\n")
      | .floating =>
        wr info ("\t" ++ instruction_to_text .IC_MIPS_MOV_S ++ " " ++ rvalue_to_text destination
          ++ ", " ++ rvalue_to_text source ++ "\n")
      | _ => info

/--
`emit_binary_operation`: emit a binary operation on two rvalues.  The `fuel`
argument bounds the self-recursion that the source performs for
constant-operand subtraction (`x - c` is rewritten through `c * (-1)`); the
recursion never nests more than twice.
-/
def emit_binary_operation (fuel : Nat) (info : information) (rval1 rval2 : rvalue)
    (operation : binary_t) : information × rvalue :=
  match fuel with
  | 0 => (info, rvalue_void)
  | fuel + 1 =>
    let freeing_rvalue := rvalue_void
    if rval1.kind = .RVALUE_KIND_REGISTER ∧ rval2.kind = .RVALUE_KIND_REGISTER then
      -- Оба rvalue в регистрах
      let (info, result, freeing_rvalue) :=
        if rval1.from_lvalue = false ∧ rval2.from_lvalue = false then
          if rval1.reg_num > rval2.reg_num then (info, rval2.reg_num, rval1)
          else (info, rval1.reg_num, rval2)
        else if rval1.from_lvalue = true ∧ rval2.from_lvalue = false then
          (info, rval2.reg_num, freeing_rvalue)
        else if rval2.from_lvalue = true ∧ rval1.from_lvalue = false then
          (info, rval1.reg_num, freeing_rvalue)
        else
          let (info, r) :=
            if type_is_floating rval1.type then get_float_register info else get_register info
          (info, r, freeing_rvalue)
      let result_rvalue : rvalue :=
        { kind := .RVALUE_KIND_REGISTER, val := .reg_of result, type := rval1.type,
          from_lvalue := !FROM_LVALUE }
      let info :=
        match operation with
        | .BIN_LT | .BIN_GT | .BIN_LE | .BIN_GE | .BIN_EQ | .BIN_NE =>
          let curr_label_num := info.label_num
          let info := { info with label_num := info.label_num + 1 }
          let label_else : label := { kind := .L_ELSE, num := curr_label_num }
          let label_end : label := { kind := .L_END, num := curr_label_num }
          let info := wr info ("\t" ++ instruction_to_text .IC_MIPS_SUB ++ " "
            ++ rvalue_to_text result_rvalue ++ ", " ++ rvalue_to_text rval1 ++ ", "
            ++ rvalue_to_text rval2 ++ "\n")
          let branch : mips_instruction_t :=
            if operation = .BIN_GT then .IC_MIPS_BGTZ
            else if operation = .BIN_LT then .IC_MIPS_BLTZ
            else if operation = .BIN_GE then .IC_MIPS_BGEZ
            else if operation = .BIN_LE then .IC_MIPS_BLEZ
            else if operation = .BIN_EQ then .IC_MIPS_BEQ
            else .IC_MIPS_BNE
          let info := emit_label (wr info ("\t" ++ instruction_to_text branch ++ " "
            ++ rvalue_to_text result_rvalue ++ ", ")) label_else
          let info := wr info ("\t" ++ instruction_to_text .IC_MIPS_LI ++ " "
            ++ rvalue_to_text result_rvalue ++ ", 1\n")
          let info := emit_label info label_end
          let info := emit_label info label_else
          let info := wr info ("\t" ++ instruction_to_text .IC_MIPS_LI ++ " "
            ++ rvalue_to_text result_rvalue ++ ", 0\n")
          let info := emit_label_declaration info label_end
          wr info "\n"
        | _ =>
          wr info ("\t" ++ instruction_to_text (get_bin_instruction operation false) ++ " "
            ++ rvalue_to_text result_rvalue ++ ", " ++ rvalue_to_text rval1 ++ ", "
            ++ rvalue_to_text rval2 ++ "\n")
      (free_rvalue info freeing_rvalue, result_rvalue)
    else
      -- Гарантируется, что будет ровно один оператор в регистре и один в константе;
      -- константа переставляется в rval2
      let (rval1, rval2) :=
        if rval2.kind ≠ .RVALUE_KIND_CONST then (rval2, rval1) else (rval1, rval2)
      let (info, result) :=
        if rval1.from_lvalue then
          if type_is_floating rval1.type then get_float_register info else get_register info
        else
          (info, rval1.reg_num)
      let result_rvalue : rvalue :=
        { kind := .RVALUE_KIND_REGISTER, val := .reg_of result, type := rval1.type,
          from_lvalue := !FROM_LVALUE }
      let info :=
        match operation with
        | .BIN_LT | .BIN_GT | .BIN_LE | .BIN_GE | .BIN_EQ | .BIN_NE =>
          let curr_label_num := info.label_num
          let info := { info with label_num := info.label_num + 1 }
          let label_else : label := { kind := .L_ELSE, num := curr_label_num }
          let label_end : label := { kind := .L_END, num := curr_label_num }
          -- Загружаем значение из rval2 на регистр
          let tmp_rval := rval2
          let (info, r2) :=
            if type_is_floating tmp_rval.type then get_float_register info else get_register info
          let rval2 : rvalue :=
            { kind := .RVALUE_KIND_REGISTER, val := .reg_of r2, type := tmp_rval.type,
              from_lvalue := !FROM_LVALUE }
          let info := emit_store_rvalue_to_rvalue info rval2 tmp_rval
          let info := wr info ("\t" ++ instruction_to_text .IC_MIPS_SUB ++ " "
            ++ rvalue_to_text result_rvalue ++ ", " ++ rvalue_to_text rval1 ++ ", "
            ++ mips_register_to_text rval2.reg_num ++ "\n")
          let branch : mips_instruction_t :=
            if operation = .BIN_GT then .IC_MIPS_BGTZ
            else if operation = .BIN_LT then .IC_MIPS_BLTZ
            else if operation = .BIN_GE then .IC_MIPS_BGEZ
            else if operation = .BIN_LE then .IC_MIPS_BLEZ
            else if operation = .BIN_EQ then .IC_MIPS_BEQ
            else .IC_MIPS_BNE
          let info := emit_label (wr info ("\t" ++ instruction_to_text branch ++ " "
            ++ rvalue_to_text result_rvalue ++ ", ")) label_else
          let info := wr info ("\t" ++ instruction_to_text .IC_MIPS_LI ++ " "
            ++ rvalue_to_text result_rvalue ++ ", 1\n")
          let info := emit_unconditional_branch info label_end
          let info := emit_label info label_else
          let info := wr info ("\t" ++ instruction_to_text .IC_MIPS_LI ++ " "
            ++ rvalue_to_text result_rvalue ++ ", 0\n")
          let info := emit_label_declaration info label_end
          wr info "\n"
        | _ =>
          -- Предварительно загружаем константу из rval2 в регистровый rvalue
          let (info, rval2) :=
            if operation = .BIN_SUB ∨ operation = .BIN_DIV ∨ operation = .BIN_MUL ∨
                operation = .BIN_REM ∨ operation = .BIN_DIV then
              let tmp_rval := rval2
              let (info, r2) :=
                if type_is_floating tmp_rval.type then get_float_register info
                else get_register info
              let rval2 : rvalue :=
                { kind := .RVALUE_KIND_REGISTER, val := .reg_of r2, type := tmp_rval.type,
                  from_lvalue := !FROM_LVALUE }
              (emit_store_rvalue_to_rvalue info rval2 tmp_rval, rval2)
            else
              (info, rval2)
          -- Нет команды вычитания константы из регистра, поэтому умножаем на (-1)
          let info :=
            if operation = .BIN_SUB then
              (emit_binary_operation fuel info rval2 rvalue_negative_one .BIN_MUL).1
            else
              info
          let info := wr info ("\t" ++ instruction_to_text (get_bin_instruction operation true)
            ++ " " ++ rvalue_to_text result_rvalue ++ ", " ++ rvalue_to_text rval1 ++ ", "
            ++ rvalue_to_text rval2 ++ "\n")
          free_rvalue info rval2
      (free_rvalue info freeing_rvalue, result_rvalue)

/--
A copy of `emit_binary_operation` whose only difference is that the
materialize-constant guard lists `BIN_DIV` once instead of twice; this is the
repaired guard that the specification asserts to be equivalent.
-/
def emit_binary_operation_nodup (fuel : Nat) (info : information) (rval1 rval2 : rvalue)
    (operation : binary_t) : information × rvalue :=
  match fuel with
  | 0 => (info, rvalue_void)
  | fuel + 1 =>
    let freeing_rvalue := rvalue_void
    if rval1.kind = .RVALUE_KIND_REGISTER ∧ rval2.kind = .RVALUE_KIND_REGISTER then
      let (info, result, freeing_rvalue) :=
        if rval1.from_lvalue = false ∧ rval2.from_lvalue = false then
          if rval1.reg_num > rval2.reg_num then (info, rval2.reg_num, rval1)
          else (info, rval1.reg_num, rval2)
        else if rval1.from_lvalue = true ∧ rval2.from_lvalue = false then
          (info, rval2.reg_num, freeing_rvalue)
        else if rval2.from_lvalue = true ∧ rval1.from_lvalue = false then
          (info, rval1.reg_num, freeing_rvalue)
        else
          let (info, r) :=
            if type_is_floating rval1.type then get_float_register info else get_register info
          (info, r, freeing_rvalue)
      let result_rvalue : rvalue :=
        { kind := .RVALUE_KIND_REGISTER, val := .reg_of result, type := rval1.type,
          from_lvalue := !FROM_LVALUE }
      let info :=
        match operation with
        | .BIN_LT | .BIN_GT | .BIN_LE | .BIN_GE | .BIN_EQ | .BIN_NE =>
          let curr_label_num := info.label_num
          let info := { info with label_num := info.label_num + 1 }
          let label_else : label := { kind := .L_ELSE, num := curr_label_num }
          let label_end : label := { kind := .L_END, num := curr_label_num }
          let info := wr info ("\t" ++ instruction_to_text .IC_MIPS_SUB ++ " "
            ++ rvalue_to_text result_rvalue ++ ", " ++ rvalue_to_text rval1 ++ ", "
            ++ rvalue_to_text rval2 ++ "\n")
          let branch : mips_instruction_t :=
            if operation = .BIN_GT then .IC_MIPS_BGTZ
            else if operation = .BIN_LT then .IC_MIPS_BLTZ
            else if operation = .BIN_GE then .IC_MIPS_BGEZ
            else if operation = .BIN_LE then .IC_MIPS_BLEZ
            else if operation = .BIN_EQ then .IC_MIPS_BEQ
            else .IC_MIPS_BNE
          let info := emit_label (wr info ("\t" ++ instruction_to_text branch ++ " "
            ++ rvalue_to_text result_rvalue ++ ", ")) label_else
          let info := wr info ("\t" ++ instruction_to_text .IC_MIPS_LI ++ " "
            ++ rvalue_to_text result_rvalue ++ ", 1\n")
          let info := emit_label info label_end
          let info := emit_label info label_else
          let info := wr info ("\t" ++ instruction_to_text .IC_MIPS_LI ++ " "
            ++ rvalue_to_text result_rvalue ++ ", 0\n")
          let info := emit_label_declaration info label_end
          wr info "\n"
        | _ =>
          wr info ("\t" ++ instruction_to_text (get_bin_instruction operation false) ++ " "
            ++ rvalue_to_text result_rvalue ++ ", " ++ rvalue_to_text rval1 ++ ", "
            ++ rvalue_to_text rval2 ++ "\n")
      (free_rvalue info freeing_rvalue, result_rvalue)
    else
      let (rval1, rval2) :=
        if rval2.kind ≠ .RVALUE_KIND_CONST then (rval2, rval1) else (rval1, rval2)
      let (info, result) :=
        if rval1.from_lvalue then
          if type_is_floating rval1.type then get_float_register info else get_register info
        else
          (info, rval1.reg_num)
      let result_rvalue : rvalue :=
        { kind := .RVALUE_KIND_REGISTER, val := .reg_of result, type := rval1.type,
          from_lvalue := !FROM_LVALUE }
      let info :=
        match operation with
        | .BIN_LT | .BIN_GT | .BIN_LE | .BIN_GE | .BIN_EQ | .BIN_NE =>
          let curr_label_num := info.label_num
          let info := { info with label_num := info.label_num + 1 }
          let label_else : label := { kind := .L_ELSE, num := curr_label_num }
          let label_end : label := { kind := .L_END, num := curr_label_num }
          let tmp_rval := rval2
          let (info, r2) :=
            if type_is_floating tmp_rval.type then get_float_register info else get_register info
          let rval2 : rvalue :=
            { kind := .RVALUE_KIND_REGISTER, val := .reg_of r2, type := tmp_rval.type,
              from_lvalue := !FROM_LVALUE }
          let info := emit_store_rvalue_to_rvalue info rval2 tmp_rval
          let info := wr info ("\t" ++ instruction_to_text .IC_MIPS_SUB ++ " "
            ++ rvalue_to_text result_rvalue ++ ", " ++ rvalue_to_text rval1 ++ ", "
            ++ mips_register_to_text rval2.reg_num ++ "\n")
          let branch : mips_instruction_t :=
            if operation = .BIN_GT then .IC_MIPS_BGTZ
            else if operation = .BIN_LT then .IC_MIPS_BLTZ
            else if operation = .BIN_GE then .IC_MIPS_BGEZ
            else if operation = .BIN_LE then .IC_MIPS_BLEZ
            else if operation = .BIN_EQ then .IC_MIPS_BEQ
            else .IC_MIPS_BNE
          let info := emit_label (wr info ("\t" ++ instruction_to_text branch ++ " "
            ++ rvalue_to_text result_rvalue ++ ", ")) label_else
          let info := wr info ("\t" ++ instruction_to_text .IC_MIPS_LI ++ " "
            ++ rvalue_to_text result_rvalue ++ ", 1\n")
          let info := emit_unconditional_branch info label_end
          let info := emit_label info label_else
          let info := wr info ("\t" ++ instruction_to_text .IC_MIPS_LI ++ " "
            ++ rvalue_to_text result_rvalue ++ ", 0\n")
          let info := emit_label_declaration info label_end
          wr info "\n"
        | _ =>
          let (info, rval2) :=
            if operation = .BIN_SUB ∨ operation = .BIN_DIV ∨ operation = .BIN_MUL ∨
                operation = .BIN_REM then
              let tmp_rval := rval2
              let (info, r2) :=
                if type_is_floating tmp_rval.type then get_float_register info
                else get_register info
              let rval2 : rvalue :=
                { kind := .RVALUE_KIND_REGISTER, val := .reg_of r2, type := tmp_rval.type,
                  from_lvalue := !FROM_LVALUE }
              (emit_store_rvalue_to_rvalue info rval2 tmp_rval, rval2)
            else
              (info, rval2)
          let info :=
            if operation = .BIN_SUB then
              (emit_binary_operation_nodup fuel info rval2 rvalue_negative_one .BIN_MUL).1
            else
              info
          let info := wr info ("\t" ++ instruction_to_text (get_bin_instruction operation true)
            ++ " " ++ rvalue_to_text result_rvalue ++ ", " ++ rvalue_to_text rval1 ++ ", "
            ++ rvalue_to_text rval2 ++ "\n")
          free_rvalue info rval2
      (free_rvalue info freeing_rvalue, result_rvalue)

/-- `LVALUE_KIND`. -/
inductive lvalue_kind_t where
  | LVALUE_KIND_STACK
  | LVALUE_KIND_REGISTER
deriving DecidableEq, Repr

/-- `struct lvalue`.  The location union `{ reg_num; displ }` holds a single
`item_t` either way and is modelled as the single field `loc`. -/
structure lvalue where
  kind : lvalue_kind_t
  base_reg : item_t
  loc : item_t
  type : ruc_type

/-- The `hash` cell encoding of an `lvalue_kind_t` (`LVALUE_KIND_STACK` is 0). -/
def lvalue_kind_to_item : lvalue_kind_t → item_t
  | .LVALUE_KIND_STACK => 0
  | .LVALUE_KIND_REGISTER => 1

/-- Reading an `lvalue_kind_t` back from a `hash` cell. -/
def lvalue_kind_of_item (i : item_t) : lvalue_kind_t :=
  if i = 0 then .LVALUE_KIND_STACK else .LVALUE_KIND_REGISTER

def ITEM_MAX : item_t := 9223372036854775807

/-- `displacements_add`: record a new identifier in the displacement table and
build its lvalue.  (This version of the source never advances `max_displ`, so
every local receives the displacement `info->max_displ` current at its
declaration.) -/
def displacements_add (info : information) (identifier : Nat) : information × lvalue :=
  let displacement := info.max_displ
  let base_reg := if ident_is_local info.sx identifier then R_SP else R_GP
  let type := ident_get_type info.sx identifier
  let h := hash_add info.displacements identifier 3
  let h := hash_set_by_index h identifier 0 (lvalue_kind_to_item .LVALUE_KIND_STACK)
  let h := hash_set_by_index h identifier 1 (displacement : Int)
  let h := hash_set_by_index h identifier 2 base_reg
  ({ info with displacements := h },
    { kind := .LVALUE_KIND_STACK, base_reg := base_reg, loc := (displacement : Int),
      type := type })

/-- `displacements_get`. -/
def displacements_get (info : information) (identifier : Nat) : lvalue :=
  let kind := lvalue_kind_of_item (hash_get info.displacements identifier 0)
  let displacement := hash_get info.displacements identifier 1
  let base_reg := hash_get info.displacements identifier 2
  let type := ident_get_type info.sx identifier
  { kind := kind, base_reg := base_reg, loc := displacement, type := type }

/--
`emit_load_of_lvalue`: turn an lvalue into an rvalue.  A register-resident
lvalue yields a `from_lvalue` rvalue without emitting code; a stack lvalue
allocates a fresh register and loads into it.  (The source computes the
`LW`/`L_S` choice into a local but then prints `IC_MIPS_L_S` for both cases;
the model reproduces the printed behaviour.)  The base register is freed
afterwards, which for plain scalars is a no-op.
-/
def emit_load_of_lvalue (info : information) (lval : lvalue) : information × rvalue :=
  if lval.kind = .LVALUE_KIND_REGISTER then
    (info, { kind := .RVALUE_KIND_REGISTER, val := .reg_of lval.loc,
             from_lvalue := FROM_LVALUE, type := lval.type })
  else
    let is_floating := type_is_floating lval.type
    let (info, reg) := if is_floating then get_float_register info else get_register info
    let result : rvalue :=
      { kind := .RVALUE_KIND_REGISTER, val := .reg_of reg, from_lvalue := !FROM_LVALUE,
        type := lval.type }
    let info := wr info ("\t" ++ instruction_to_text .IC_MIPS_L_S ++ " "
      ++ rvalue_to_text result ++ ", " ++ toString lval.loc ++ "("
      ++ mips_register_to_text lval.base_reg ++ ")\n")
    (free_register info lval.base_reg, result)

/-- Modelled from the spec (§9 design notes): AST expressions are exposed as a
class tag plus per-class accessors; they are embedded as a tagged sum.  The
subset carries the expression classes the verified claims exercise; every node
records its computed type where the code generator asks for it. -/
inductive expr where
  | literal_bool (b : Bool)
  | literal_char (c : item_t)
  | literal_int (n : item_t)
  | identifier (id : Nat) (ty : ruc_type)
  | empty_bound

/-- Modelled from the spec: the expression class tags of the embedded subset. -/
inductive expr_class where
  | EXPR_LITERAL
  | EXPR_IDENTIFIER
  | EXPR_EMPTY_BOUND
deriving DecidableEq, Repr

/-- Modelled from the spec: `expression_get_class`. -/
def expression_get_class : expr → expr_class
  | .literal_bool _ | .literal_char _ | .literal_int _ => .EXPR_LITERAL
  | .identifier _ _ => .EXPR_IDENTIFIER
  | .empty_bound => .EXPR_EMPTY_BOUND

/-- Modelled from the spec: `expression_get_type`. -/
def expression_get_type : expr → ruc_type
  | .literal_bool _ => .boolean
  | .literal_char _ => .character
  | .literal_int _ => .integer
  | .identifier _ ty => ty
  | .empty_bound => .integer

/-- Modelled from the spec: `expression_is_lvalue`. -/
def expression_is_lvalue : expr → Bool
  | .identifier _ _ => true
  | _ => false

/-- Modelled from the spec: `expression_identifier_get_id`. -/
def expression_identifier_get_id : expr → Nat
  | .identifier id _ => id
  | _ => 0

/-- Modelled from the spec: `expression_literal_get_boolean`. -/
def expression_literal_get_boolean : expr → Bool
  | .literal_bool b => b
  | _ => false

/-- Modelled from the spec: `expression_literal_get_character`. -/
def expression_literal_get_character : expr → item_t
  | .literal_char c => c
  | _ => 0

/-- Modelled from the spec: `expression_literal_get_integer`. -/
def expression_literal_get_integer : expr → item_t
  | .literal_int n => n
  | _ => 0

/-- `emit_literal_expression`: a literal becomes a remembered constant. -/
def emit_literal_expression (sx : syntax_model) (nd : expr) : rvalue :=
  let type := expression_get_type nd
  match type_get_class type with
  | .boolean =>
    { kind := .RVALUE_KIND_CONST, type := type,
      val := .int_of (if expression_literal_get_boolean nd then 1 else 0),
      from_lvalue := !FROM_LVALUE }
  | .character =>
    { kind := .RVALUE_KIND_CONST, type := type,
      val := .int_of (expression_literal_get_character nd), from_lvalue := !FROM_LVALUE }
  | .integer =>
    { kind := .RVALUE_KIND_CONST, type := type,
      val := .int_of (expression_literal_get_integer nd), from_lvalue := !FROM_LVALUE }
  | _ => (let _ := sx; rvalue_void)

/-- `emit_identifier_lvalue`. -/
def emit_identifier_lvalue (info : information) (nd : expr) : lvalue :=
  displacements_get info (expression_identifier_get_id nd)

/-- `emit_lvalue`: of the embedded expression subset only identifiers are
lvalues; the `default:` arm raises `system_error(node_unexpected)` (modelled as
bumping the report counter) and returns the poison lvalue. -/
def emit_lvalue (info : information) (nd : expr) : information × lvalue :=
  match expression_get_class nd with
  | .EXPR_IDENTIFIER => (info, emit_identifier_lvalue info nd)
  | _ =>
    ({ info with sx := { info.sx with errors := info.sx.errors + 1 } },
      { kind := .LVALUE_KIND_STACK, base_reg := 0, loc := ITEM_MAX, type := .void })

/-- `emit_expression` restricted to the embedded expression subset (lvalues are
loaded; literals become constants; every other class of the subset falls to
the `default:` arm returning a void rvalue). -/
def emit_expression (info : information) (nd : expr) : information × rvalue :=
  if expression_is_lvalue nd then
    let (info, lval) := emit_lvalue info nd
    emit_load_of_lvalue info lval
  else
    match expression_get_class nd with
    | .EXPR_LITERAL => (info, emit_literal_expression info.sx nd)
    | _ => (info, rvalue_void)

/-- `emit_void_expression`. -/
def emit_void_expression (info : information) (nd : expr) : information × rvalue :=
  if expression_is_lvalue nd then
    let (info, _) := emit_lvalue info nd
    (info, rvalue_void)
  else
    let (info, result) := emit_expression info nd
    (free_rvalue info result, rvalue_void)

/-- `emit_boolean_expression`: integers pass through; floating constants
collapse to 0/1; floating registers convert through `cvt.w.s`/`mfc1`. -/
def emit_boolean_expression (info : information) (nd : expr) : information × rvalue :=
  let (info, value) := emit_expression info nd
  let is_integer := !type_is_floating value.type
  if is_integer then
    (info, value)
  else
    if value.kind = .RVALUE_KIND_CONST then
      (info, { kind := .RVALUE_KIND_CONST, type := TYPE_INTEGER,
               val := .int_of (if value.float_printed = "0.000000" then 0 else 1),
               from_lvalue := false })
    else
      let (info, r) := get_register info
      let result : rvalue :=
        { from_lvalue := !FROM_LVALUE, kind := .RVALUE_KIND_REGISTER, val := .reg_of r,
          type := TYPE_INTEGER }
      let info := to_code_2R info .IC_MIPS_CVT_W_S value.reg_num value.reg_num
      let info := to_code_2R info .IC_MIPS_MFC_1 value.reg_num result.reg_num
      (free_rvalue info value, result)

/-- Modelled from the spec: `type_structure_get_member_amount`. -/
def type_structure_get_member_amount : ruc_type → Nat
  | .structure_ ms => ms.length
  | _ => 0

/-- Modelled from the spec: `type_structure_get_member_type`. -/
def type_structure_get_member_type (t : ruc_type) (i : Nat) : ruc_type :=
  match t with
  | .structure_ ms => ms.getD i .void
  | _ => .void

/--
`emit_store_of_rvalue`: store an rvalue into an lvalue.  A constant is first
materialised into a register; register lvalues receive a `move`/`mov.s`;
scalar stack lvalues receive `sw`/`s.s`; aggregate lvalues are copied
member-wise (recursively, bounded by `fuel`; floating members occupy one word
although `type_size` reports two).
-/
def emit_store_of_rvalue (fuel : Nat) (info : information) (rval : rvalue) (lval : lvalue) :
    information × lvalue :=
  match fuel with
  | 0 => (info, lval)
  | fuel + 1 =>
    let (info, rval) :=
      if rval.kind = .RVALUE_KIND_CONST then
        let tmp_rval := rval
        let (info, r) :=
          if type_is_floating tmp_rval.type then get_float_register info else get_register info
        let rval : rvalue :=
          { kind := .RVALUE_KIND_REGISTER, val := .reg_of r, type := tmp_rval.type,
            from_lvalue := !FROM_LVALUE }
        (emit_store_rvalue_to_rvalue info rval tmp_rval, rval)
      else
        (info, rval)
    let info := wr info "\t"
    if lval.kind = .LVALUE_KIND_REGISTER then
      let (info, loaded) := emit_load_of_lvalue info lval
      let info := wr info (instruction_to_text
          (if type_is_floating rval.type then .IC_MIPS_MOV_S else .IC_MIPS_MOVE)
        ++ " " ++ rvalue_to_text rval ++ ", " ++ rvalue_to_text loaded ++ "\n")
      (info, lval)
    else
      if !type_is_structure (type_get_class lval.type) ∧ !type_is_array (type_get_class lval.type)
      then
        let info := wr info (instruction_to_text
            (if type_is_floating rval.type then .IC_MIPS_S_S else .IC_MIPS_SW)
          ++ " " ++ rvalue_to_text rval ++ ", " ++ toString lval.loc ++ "("
          ++ mips_register_to_text lval.base_reg ++ ")\n")
        (info, lval)
      else
        let amount := type_structure_get_member_amount lval.type
        let info := (List.range amount).foldl (fun info i =>
          let member_type := type_structure_get_member_type lval.type i
          let member_size :=
            WORD_LENGTH * type_size member_type -
              (if type_is_floating member_type then WORD_LENGTH else 0)
          let (info, displ_rval) := emit_load_of_lvalue info
            { loc := (i : Int) * (member_size : Int), base_reg := rval.reg_num,
              type := member_type, kind := .LVALUE_KIND_STACK }
          let (info, _) := emit_store_of_rvalue fuel info displ_rval
            { base_reg := lval.base_reg, kind := .LVALUE_KIND_STACK,
              loc := lval.loc + (i : Int) * (member_size : Int), type := member_type }
          free_rvalue info displ_rval) info
        (info, lval)

/-- Modelled from the spec: a variable declarator node — the declared
identifier, the array bound expressions and the optional initializer. -/
structure var_decl where
  id : Nat
  bounds : List expr
  initializer : Option expr

/-- Modelled from the spec: `declaration_variable_get_id`. -/
def declaration_variable_get_id (nd : var_decl) : Nat := nd.id

/-- Modelled from the spec: `declaration_variable_get_bound`. -/
def declaration_variable_get_bound (nd : var_decl) (i : Nat) : expr :=
  nd.bounds.getD i .empty_bound

/-- Modelled from the spec: `declaration_variable_has_initializer`. -/
def declaration_variable_has_initializer (nd : var_decl) : Bool :=
  nd.initializer.isSome

/-- Modelled from the spec: `declaration_variable_get_initializer`. -/
def declaration_variable_get_initializer (nd : var_decl) : expr :=
  nd.initializer.getD .empty_bound

/-- The fuel given to `emit_binary_operation` at its call sites; its
self-recursion (constant subtraction through multiplication by −1) is at most
one level deep, so any fuel of at least 2 reproduces the source. -/
def BINOP_FUEL : Nat := 2

/-- The local `type` after the dimensions loop of `emit_array_declaration`:
the element type reached by stripping array layers. -/
def strip_array_layers : ruc_type → ruc_type
  | .array elem => strip_array_layers elem
  | t => t

/--
The dimensions loop of `emit_array_declaration` (`while (type_is_array(...))`),
walking the bound expressions of a declarator.  An empty bound of an inner
dimension raises `system_error(empty_init)`, modelled as bumping the report
counter.
-/
def emit_array_declaration_dims (fuel : Nat) (nd : var_decl) (info : information) :
    ruc_type → Nat → information
  | .array elem, dimensions =>
    let type := elem
    let bound := declaration_variable_get_bound nd dimensions
    let info :=
      if expression_get_class bound = .EXPR_EMPTY_BOUND then
        if type_is_array type then
          { info with sx := { info.sx with errors := info.sx.errors + 1 } }
        else
          info
      else
        let (info, bound_rvalue) := emit_expression info bound
        let (info, bound_rvalue) :=
          if bound_rvalue.kind = .RVALUE_KIND_CONST then
            let tmp_rval := bound_rvalue
            let (info, r) :=
              if type_is_floating tmp_rval.type then get_float_register info
              else get_register info
            let bound_rvalue : rvalue :=
              { kind := .RVALUE_KIND_REGISTER, val := .reg_of r, type := tmp_rval.type,
                from_lvalue := !FROM_LVALUE }
            (emit_store_rvalue_to_rvalue info bound_rvalue tmp_rval, bound_rvalue)
          else
            (info, bound_rvalue)
        -- Размещаем размер текущего измерения
        let (info, _) := emit_store_of_rvalue fuel info bound_rvalue
          { base_reg := R_FP, kind := .LVALUE_KIND_STACK, loc := 0, type := TYPE_INTEGER }
        -- Смещаем на один (за размер)
        let (info, _) := emit_binary_operation BINOP_FUEL info bound_rvalue rvalue_one .BIN_ADD
        -- Умножаем на WORD_LENGTH
        let (info, _) := emit_binary_operation BINOP_FUEL info bound_rvalue
          { from_lvalue := !FROM_LVALUE, kind := .RVALUE_KIND_CONST, type := TYPE_INTEGER,
            val := .int_of (WORD_LENGTH : Int) } .BIN_MUL
        -- Чтобы в bound_rvalue не записался результат следующей операции
        let bound_rvalue := { bound_rvalue with from_lvalue := FROM_LVALUE }
        -- Сдвигаем $fp
        let (info, _) := emit_binary_operation BINOP_FUEL info
          { from_lvalue := !FROM_LVALUE, kind := .RVALUE_KIND_REGISTER, type := TYPE_INTEGER,
            val := .reg_of R_FP } bound_rvalue .BIN_SUB
        free_rvalue info bound_rvalue
    emit_array_declaration_dims fuel nd info type (dimensions + 1)
  | _, _ => info

/--
`emit_array_declaration`: lower an array declaration — store the array base
address, walk the dimensions, place each dimension size, advance `$fp`, and
evaluate an optional (one-dimensional) initializer.  `fuel` bounds the store
recursion.
-/
def emit_array_declaration (fuel : Nat) (info : information) (nd : var_decl) : information :=
  let identifier := declaration_variable_get_id nd
  let type0 := ident_get_type info.sx identifier
  let arr_displ := hash_get info.displacements identifier 1
  -- Сохраняем адрес начала массива
  let (info, _) := emit_store_of_rvalue fuel info
    { from_lvalue := !FROM_LVALUE, kind := .RVALUE_KIND_REGISTER, val := .reg_of R_FP,
      type := TYPE_INTEGER }
    { base_reg := R_SP, kind := .LVALUE_KIND_STACK, loc := arr_displ, type := TYPE_ARRAY }
  let info := emit_array_declaration_dims fuel nd info type0 0
  -- Смещаемся, чтобы $fp ни на что не указывал
  let info := wr info "\n\t# setting up $fp:\n"
  let info := to_code_2R_I info .IC_MIPS_ADDI R_FP R_FP (-(WORD_LENGTH : Int))
  let info := wr info "\n"
  if declaration_variable_has_initializer nd then
    let displ := hash_get info.displacements identifier 1
    let (info, array_address_rvalue) := emit_load_of_lvalue info
      { base_reg := R_SP, kind := .LVALUE_KIND_STACK, loc := displ,
        type := strip_array_layers type0 }
    -- Одномерная инициализация: элементы модели — выражения подмножества
    let init := declaration_variable_get_initializer nd
    let (info, subexpr_rval) := emit_expression info init
    let (info, _) := emit_store_of_rvalue fuel info subexpr_rval
      { kind := .LVALUE_KIND_STACK, base_reg := array_address_rvalue.reg_num,
        type := expression_get_type init, loc := -((1 : Int)) * (WORD_LENGTH : Int) }
    let info := free_rvalue info subexpr_rval
    free_rvalue info array_address_rvalue
  else
    info

/--
`emit_variable_declaration`: add the identifier to the displacement table;
then — with the guard exactly as in the source — an **array-typed** identifier
only evaluates and stores its optional initializer, while a **non-array**
identifier is handed to `emit_array_declaration`.
-/
def emit_variable_declaration (fuel : Nat) (info : information) (nd : var_decl) :
    information :=
  let identifier := declaration_variable_get_id nd
  let (info, variable_lv) := displacements_add info identifier
  let type := ident_get_type info.sx identifier
  if type_is_array type then
    if declaration_variable_has_initializer nd then
      let initializer := declaration_variable_get_initializer nd
      let (info, value) := emit_expression info initializer
      let (info, _) := emit_store_of_rvalue fuel info value variable_lv
      free_rvalue info value
    else
      info
  else
    emit_array_declaration fuel info nd

/-- Modelled from the spec: the statement class subset the claims exercise.
Declaration statements carry variable declarators (functions are not nested in
the source language). -/
inductive stmt where
  | declS (decls : List var_decl)
  | nullS
  | exprS (e : expr)
  | compound (substmts : List stmt)
  | ifS (cond : expr) (then_substmt : stmt) (else_substmt : Option stmt)
  | whileS (cond : expr) (body : stmt)
  | doS (body : stmt) (cond : expr)
  | forS (inition : Option stmt) (cond : Option expr) (increment : Option expr) (body : stmt)
  | continueS
  | breakS
  | returnS (e : Option expr)

/-- `emit_return_statement` needs the current statement node only through its
optional expression; `emit_statement` supplies it. -/
def emit_return_statement (fuel : Nat) (info : information) (e : Option expr) : information :=
  let info :=
    match e with
    | some expression =>
      let (info, value) := emit_expression info expression
      -- `expression_get_type(nd)` on the return node: the type of the returned value
      let type := expression_get_type expression
      let return_lval : lvalue :=
        { kind := .LVALUE_KIND_REGISTER, loc := R_V0, base_reg := 0, type := type }
      let (info, _) := emit_store_of_rvalue fuel info value return_lval
      free_rvalue info value
    | none => info
  let label_end : label := { kind := .L_FUNCEND, num := info.curr_function_ident }
  emit_unconditional_branch info label_end

/-- `emit_continue_statement`. -/
def emit_continue_statement (info : information) : information :=
  emit_unconditional_branch info info.label_continue

/-- `emit_break_statement`. -/
def emit_break_statement (info : information) : information :=
  emit_unconditional_branch info info.label_break

mutual

/--
`emit_statement` and the statement emitters it dispatches to, merged into one
structural recursion over the statement subset (`emit_statement_list` is the
loop of `emit_compound_statement`, `emit_statement_opt` an optional
sub-statement).  Every arm is the direct transcription of its emitter
(`emit_declaration_statement`, `emit_compound_statement`, `emit_if_statement`,
`emit_while_statement`, `emit_do_statement`, `emit_for_statement`,
continue/break/return); the final `uni_printf(info->sx->io, "\n")` of
`emit_statement` closes every arm.
-/
def emit_statement (fuel : Nat) (info : information) : stmt → information
  | .declS decls =>
    -- `emit_declaration_statement`: each declarator through `emit_declaration`,
    -- whose `DECL_VAR` arm runs `emit_variable_declaration` and prints "\n"
    let info := decls.foldl (fun info d => wr (emit_variable_declaration fuel info d) "\n") info
    wr info "\n"
  | .nullS => wr info "\n"
  | .exprS e =>
    let (info, _) := emit_void_expression info e
    wr info "\n"
  | .compound substmts =>
    let scope_displacement := info.displ
    let info := emit_statement_list fuel info substmts
    wr { info with displ := scope_displacement } "\n"
  | .ifS cond then_substmt else_substmt =>
    let (info, value) := emit_boolean_expression info cond
    let label_num := info.label_num
    let info := { info with label_num := info.label_num + 1 }
    let label_else : label := { kind := .L_ELSE, num := label_num }
    let label_end : label := { kind := .L_END, num := label_num }
    let has_else := else_substmt.isSome
    let info := emit_conditional_branch info value (if has_else then label_else else label_end)
    let info := emit_statement fuel info then_substmt
    let info :=
      match else_substmt with
      | some els =>
        let info := emit_unconditional_branch info label_end
        let info := emit_label_declaration info label_else
        emit_statement fuel info els
      | none => info
    wr (emit_label_declaration info label_end) "\n"
  | .whileS cond body =>
    let label_num := info.label_num
    let info := { info with label_num := info.label_num + 1 }
    let label_begin : label := { kind := .L_BEGIN_CYCLE, num := label_num }
    let label_end : label := { kind := .L_END, num := label_num }
    let old_continue := info.label_continue
    let old_break := info.label_break
    let info := { info with label_continue := label_begin, label_break := label_end }
    let info := emit_label_declaration info label_begin
    let (info, value) := emit_boolean_expression info cond
    let info := emit_conditional_branch info value label_end
    let info := emit_statement fuel info body
    let info := emit_unconditional_branch info label_begin
    let info := emit_label_declaration info label_end
    wr { info with label_continue := old_continue, label_break := old_break } "\n"
  | .doS body cond =>
    let label_num := info.label_num
    let info := { info with label_num := info.label_num + 1 }
    let label_begin : label := { kind := .L_BEGIN_CYCLE, num := label_num }
    let info := emit_label_declaration info label_begin
    let label_condition : label := { kind := .L_NEXT, num := label_num }
    let label_end : label := { kind := .L_END, num := label_num }
    let old_continue := info.label_continue
    let old_break := info.label_break
    let info := { info with label_continue := label_condition, label_break := label_end }
    let info := emit_statement fuel info body
    let info := emit_label_declaration info label_condition
    let (info, value) := emit_boolean_expression info cond
    let info := emit_conditional_branch info value label_begin
    let info := emit_label_declaration info label_end
    wr { info with label_continue := old_continue, label_break := old_break } "\n"
  | .forS inition cond increment body =>
    let scope_displacement := info.displ
    let info := emit_statement_opt fuel info inition
    let label_num := info.label_num
    let info := { info with label_num := info.label_num + 1 }
    let label_begin : label := { kind := .L_BEGIN_CYCLE, num := label_num }
    let label_end : label := { kind := .L_END, num := label_num }
    let old_continue := info.label_continue
    let old_break := info.label_break
    let info := { info with label_continue := label_begin, label_break := label_end }
    let info := emit_label_declaration info label_begin
    let info :=
      match cond with
      | some c =>
        let (info, value) := emit_boolean_expression info c
        emit_conditional_branch info value label_end
      | none => info
    let info := emit_statement fuel info body
    let info :=
      match increment with
      | some inc => (emit_void_expression info inc).1
      | none => info
    let info := emit_unconditional_branch info label_begin
    let info := emit_label_declaration info label_end
    let info := { info with label_continue := old_continue, label_break := old_break }
    wr { info with displ := scope_displacement } "\n"
  | .continueS => wr (emit_continue_statement info) "\n"
  | .breakS => wr (emit_break_statement info) "\n"
  | .returnS e => wr (emit_return_statement fuel info e) "\n"

/-- The loop of `emit_compound_statement` over the children of a compound. -/
def emit_statement_list (fuel : Nat) (info : information) : List stmt → information
  | [] => info
  | s :: rest => emit_statement_list fuel (emit_statement fuel info s) rest

/-- An optional sub-statement (the `for` inition). -/
def emit_statement_opt (fuel : Nat) (info : information) : Option stmt → information
  | none => info
  | some s => emit_statement fuel info s

end

/-- Modelled from the spec: a function definition node — the function
identifier, the parameter identifiers and the body. -/
structure func_decl where
  id : Nat
  params : List Nat
  body : stmt

def declaration_function_get_id (nd : func_decl) : Nat := nd.id

def declaration_function_get_parameter (nd : func_decl) (i : Nat) : Nat :=
  nd.params.getD i 0

def declaration_function_get_body (nd : func_decl) : stmt := nd.body

/--
`emit_function_definition`: entry label, preserved-register saves, parameter
placement (printed into a separate body buffer together with the body), the
frame set-up, the buffered body, then the terminal label — declared with kind
`L_END` — followed by the register restores and `jr $ra`.  Parameters beyond
the four argument registers hit `assert(false)`; the model continues as the
`NDEBUG` build does (no action).
-/
def emit_function_definition (fuel : Nat) (info : information) (nd : func_decl) :
    information :=
  let ref_ident := declaration_function_get_id nd
  let func_label : label := { kind := .L_FUNC, num := ref_ident }
  let info := emit_label_declaration info func_label
  let info := wr info ("\t# \"" ++ ident_get_spelling info.sx ref_ident ++ "\" function:\n")
  let func_type := ident_get_type info.sx ref_ident
  let parameters := type_function_get_parameter_amount func_type
  let info := { info with curr_function_ident := ref_ident, max_displ := 0 }
  -- Сохранение оберегаемых регистров
  let info := wr info "\n\t# preserved registers:\n"
  let info := to_code_R_I_R info .IC_MIPS_SW R_RA (-(RA_SIZE : Int)) R_FP
  let info := to_code_R_I_R info .IC_MIPS_SW R_SP (-((RA_SIZE : Int) + (SP_SIZE : Int))) R_FP
  let info := (List.range PRESERVED_REG_AMOUNT).foldl (fun info i =>
    to_code_R_I_R info .IC_MIPS_SW (R_S0 + Int.ofNat i)
      (-(Int.ofNat (RA_SIZE + SP_SIZE + (i + 1) * WORD_LENGTH))) R_FP) info
  let info := wr info "\n"
  let info := (List.range (PRESERVED_FP_REG_AMOUNT / 2)).foldl (fun info i =>
    to_code_R_I_R info .IC_MIPS_S_S (R_FS0 + 2 * Int.ofNat i)
      (-(Int.ofNat (RA_SIZE + SP_SIZE + (i + 1) * WORD_LENGTH
        + PRESERVED_REG_AMOUNT * WORD_LENGTH))) R_FP) info
  let info := (List.range ARG_REG_AMOUNT).foldl (fun info i =>
    to_code_R_I_R info .IC_MIPS_SW (R_A0 + Int.ofNat i)
      (-(Int.ofNat (RA_SIZE + SP_SIZE + (i + 1) * WORD_LENGTH + PRESERVED_REG_AMOUNT * WORD_LENGTH
        + PRESERVED_FP_REG_AMOUNT / 2 * WORD_LENGTH))) R_FP) info
  -- Выравнивание смещения на 8
  let info :=
    if info.max_displ % 8 ≠ 0 then
      let padding := 8 - info.max_displ % 8
      let info := { info with max_displ := info.max_displ + padding }
      if padding ≠ 0 then
        wr info ("\n\t# padding -- max displacement == " ++ toString info.max_displ ++ "\n")
      else
        info
    else
      info
  -- Тело функции выводится в отдельный буфер
  let outer_out := info.sx.out
  let info := { info with sx := { info.sx with out := "" } }
  let info := wr info "\n\t# function parameters:\n"
  let info := (((List.range parameters).foldl (fun (st : information × Nat × Nat) i =>
    let (info, gpr_count, fp_count) := st
    let id := declaration_function_get_parameter nd i
    let info := { info with displacements := hash_add info.displacements id 2 }
    let info := wr info ("\t# parameter \"" ++ ident_get_spelling info.sx id ++ "\" ")
    if !type_is_floating (ident_get_type info.sx id) then
      if i < ARG_REG_AMOUNT then
        let curr_reg := R_A0 + (gpr_count : Int)
        let info := wr info ("is in register " ++ mips_register_to_text curr_reg ++ "\n")
        -- hash value 0 := !IS_ON_STACK (= 0)
        let h := hash_set_by_index info.displacements id 0 0
        let h := hash_set_by_index h id 1 curr_reg
        ({ info with displacements := h }, gpr_count + 1, fp_count)
      else
        (info, gpr_count, fp_count)
    else
      if i < ARG_REG_AMOUNT / 2 then
        let curr_reg := R_FA0 + 2 * (fp_count : Int)
        let info := wr info ("is in register " ++ mips_register_to_text curr_reg ++ "\n")
        -- hash value 0 := !IS_ON_STACK (= 0)
        let h := hash_set_by_index info.displacements id 0 0
        let h := hash_set_by_index h id 1 curr_reg
        ({ info with displacements := h }, gpr_count, fp_count + 1)
      else
        (info, gpr_count, fp_count)) (info, 0, 0))).1
  let info := wr info "\n\t# function body:\n"
  let body := declaration_function_get_body nd
  let info := emit_statement fuel info body
  -- Извлечение буфера с телом функции в старый io
  let buffer := info.sx.out
  let info := { info with sx := { info.sx with out := outer_out } }
  let info := wr info "\n\t# setting up $fp:\n"
  let info := to_code_2R_I info .IC_MIPS_ADDI R_FP R_FP
    (-(Int.ofNat (info.max_displ + FUNC_DISPL_PRESEREVED + WORD_LENGTH)))
  let info := wr info "\n\t# setting up $sp:\n"
  let info := to_code_2R info .IC_MIPS_MOVE R_SP R_FP
  let info := to_code_2R_I info .IC_MIPS_ADDI R_FP R_FP (-(WORD_LENGTH : Int))
  let info := wr info buffer
  let end_label : label := { kind := .L_END, num := ref_ident }
  let info := emit_label_declaration info end_label
  -- Восстановление стека после работы функции
  let info := wr info "\n\t# data restoring:\n"
  let info := to_code_2R_I info .IC_MIPS_ADDI R_FP R_SP
    (Int.ofNat (info.max_displ + FUNC_DISPL_PRESEREVED + WORD_LENGTH))
  let info := wr info "\n"
  let info := (List.range PRESERVED_REG_AMOUNT).foldl (fun info i =>
    to_code_R_I_R info .IC_MIPS_LW (R_S0 + Int.ofNat i)
      (-(Int.ofNat (RA_SIZE + SP_SIZE + (i + 1) * WORD_LENGTH))) R_FP) info
  let info := wr info "\n"
  let info := (List.range (PRESERVED_FP_REG_AMOUNT / 2)).foldl (fun info i =>
    to_code_R_I_R info .IC_MIPS_L_S (R_FS0 + 2 * Int.ofNat i)
      (-(Int.ofNat (RA_SIZE + SP_SIZE + (i + 1) * WORD_LENGTH + 8 * WORD_LENGTH))) R_FP) info
  let info := (List.range ARG_REG_AMOUNT).foldl (fun info i =>
    to_code_R_I_R info .IC_MIPS_LW (R_A0 + Int.ofNat i)
      (-(Int.ofNat (RA_SIZE + SP_SIZE + (i + 1) * WORD_LENGTH + 8 * WORD_LENGTH
        + 5 * WORD_LENGTH))) R_FP) info
  let info := wr info "\n"
  let info := to_code_R_I_R info .IC_MIPS_LW R_SP (-((RA_SIZE : Int) + (SP_SIZE : Int))) R_FP
  let info := to_code_R_I_R info .IC_MIPS_LW R_RA (-(RA_SIZE : Int)) R_FP
  to_code_R info .IC_MIPS_JR R_RA

/-- Modelled from the spec: a top-level declaration node of the embedded
subset. -/
inductive declaration where
  | varD (d : var_decl)
  | funcD (f : func_decl)
  | typeD

/-- `emit_declaration`: variable and function declarations emit their code and
a closing newline; other declarations return before the newline is printed. -/
def emit_declaration (fuel : Nat) (info : information) : declaration → information
  | .varD d => wr (emit_variable_declaration fuel info d) "\n"
  | .funcD f => wr (emit_function_definition fuel info f) "\n"
  | .typeD => info

/-- A codegen state with no output, an empty displacement table, all registers
free and all labels cleared; concrete runs start here. -/
def initial_info (sx : syntax_model) : information :=
  { sx := sx, max_displ := 0, global_displ := 0, displacements := [],
    next_register := R_T0, next_float_register := R_FT0, label_num := 0,
    label_else := { kind := .L_ELSE, num := 0 },
    label_continue := { kind := .L_BEGIN_CYCLE, num := 0 },
    label_break := { kind := .L_END, num := 0 },
    curr_function_ident := 0, registers := List.replicate 24 false, displ := 0 }

end Mips

/-! ## Part II: the macro preprocessor (`src/unnamed/part_000`) -/

namespace Preproc

/-- `char32_t`: a code point, or the `EOF` sentinel. -/
abbrev char32 := Int

/-- `(char32_t)EOF`. -/
def cEOF : char32 := -1

/-- The code point of a character literal. -/
def chr (c : Char) : char32 := (c.toNat : Int)

/-- A C string as a list of code points. -/
def cs (s : String) : List char32 := s.data.map (fun c => (c.toNat : Int))

/-- Modelled from the spec (external `utf8.h`): letters (with underscore)
begin and continue identifiers; the sources under test are ASCII. -/
def utf8_is_letter (c : char32) : Bool :=
  (chr 'A' ≤ c ∧ c ≤ chr 'Z') ∨ (chr 'a' ≤ c ∧ c ≤ chr 'z') ∨ c = chr '_'

/-- Modelled from the spec (external `utf8.h`). -/
def utf8_is_digit (c : char32) : Bool :=
  chr '0' ≤ c ∧ c ≤ chr '9'

/-- Modelled from the spec (external `utf8.h`): `utf8_convert` decodes the
first code point of a C string (0 for the empty string). -/
def utf8_convert (s : List char32) : char32 := s.headD 0

/--
Modelled from the spec (§4.A, external `uniio`): a `universal_io` — an input
buffer with a read position and a file flag, plus an optional output sink.
An io without a sink discards everything printed to it.
-/
structure io_state where
  text : List char32
  pos : Nat
  is_file : Bool
  sink : Option (List char32)
deriving DecidableEq, Repr

/-- Modelled from the spec: `io_create()` — no input, no sink. -/
def io_create : io_state :=
  { text := [], pos := 0, is_file := false, sink := none }

/-- Modelled from the spec: `uni_scan_char` — the next code point, or `EOF`
(position unchanged) past the end. -/
def uni_scan_char (io : io_state) : char32 × io_state :=
  match io.text.get? io.pos with
  | some c => (c, { io with pos := io.pos + 1 })
  | none => (cEOF, io)

/-- Modelled from the spec: `uni_unscan_char` — push back the character just
read (`EOF` is not pushed back). -/
def uni_unscan_char (io : io_state) (c : char32) : io_state :=
  if c = cEOF then io else { io with pos := io.pos - 1 }

/-- Modelled from the spec: `uni_unscan` — push back a whole lexeme just
read. -/
def uni_unscan (io : io_state) (s : List char32) : io_state :=
  { io with pos := io.pos - s.length }

/-- Modelled from the spec: `uni_print_char`; printing the `EOF` sentinel
produces nothing (the source relies on this in `parse_content`). -/
def uni_print_char (io : io_state) (c : char32) : io_state :=
  if c = cEOF then io else { io with sink := io.sink.map (· ++ [c]) }

/-- Modelled from the spec: `uni_printf(io, "%s", s)`. -/
def uni_print_str (io : io_state) (s : List char32) : io_state :=
  { io with sink := io.sink.map (· ++ s) }

/-- Modelled from the spec: `in_get_position`. -/
def in_get_position (io : io_state) : Nat := io.pos

/-- Modelled from the spec: `in_set_position`. -/
def in_set_position (io : io_state) (p : Nat) : io_state := { io with pos := p }

/-- Modelled from the spec: `in_set_buffer`. -/
def in_set_buffer (io : io_state) (s : List char32) : io_state :=
  { io with text := s, pos := 0, is_file := false }

/-- Modelled from the spec: `in_is_file`. -/
def in_is_file (io : io_state) : Bool := io.is_file

/-- Modelled from the spec: `out_set_buffer` — attach a fresh output buffer. -/
def out_set_buffer (io : io_state) : io_state := { io with sink := some [] }

/-- Modelled from the spec: `out_extract_buffer` — detach the buffer. -/
def out_extract_buffer (io : io_state) : List char32 × io_state :=
  (io.sink.getD [], { io with sink := none })

/-- Modelled from the spec: `out_swap` — exchange the output sinks of two
ios. -/
def out_swap (a b : io_state) : io_state × io_state :=
  ({ a with sink := b.sink }, { b with sink := a.sink })

/-- Modelled from the spec: `out_is_correct`. -/
def out_is_correct (io : io_state) : Bool := io.sink.isSome

/-- Modelled from the spec (§4.C, §3): one symbol-table entry — the key
lexeme, the optional string payload and the arity payload. -/
structure storage_entry where
  key : List char32
  val : Option (List char32)
  args : Nat
deriving DecidableEq, Repr

/-- Modelled from the spec: the symbol `storage` — entries addressed by
integer handles (removed entries leave a hole) and the most recent lexeme. -/
structure storage_model where
  entries : List (Option storage_entry)
  last_read : List char32
deriving DecidableEq, Repr

/-- The reserved directive keywords, in handle order (spec §3: keywords occupy
a fixed reserved range of handles; the handles named by `keywords.h`). -/
def KEYWORDS : List String :=
  ["#line", "#include", "#define", "#set", "#undef", "#eval",
   "#ifdef", "#ifndef", "#if", "#elif", "#else", "#endif",
   "#macro", "#endm", "#while", "#endw"]

def KW_LINE : Nat := 0
def KW_INCLUDE : Nat := 1
def KW_DEFINE : Nat := 2
def KW_SET : Nat := 3
def KW_UNDEF : Nat := 4

/-- Modelled from the spec: `kw_is_correct` — is the handle in the reserved
keyword range? -/
def kw_is_correct : Option Nat → Bool
  | some i => i < KEYWORDS.length
  | none => false

/-- Modelled from the spec: `storage_create` — a storage holding exactly the
keywords. -/
def storage_create : storage_model :=
  { entries := KEYWORDS.map (fun k => some { key := cs k, val := none, args := 0 }),
    last_read := [] }

/-- The longest letter/digit run at the head of a character list. -/
def lex_run : List char32 → List char32
  | [] => []
  | c :: rest => if utf8_is_letter c ∨ utf8_is_digit c then c :: lex_run rest else []

/-- Modelled from the spec (§4.C): reading an identifier-shaped lexeme from
the stream — an optional leading `#`, then the maximal letter/digit run. -/
def read_lexeme (io : io_state) : List char32 × io_state :=
  let rest := io.text.drop io.pos
  let lexeme :=
    match rest with
    | c :: tail => if c = chr '#' then c :: lex_run tail else lex_run rest
    | [] => []
  (lexeme, { io with pos := io.pos + lexeme.length })

/-- Lookup of the handle of an exact key among the live entries. -/
def storage_find (stg : storage_model) (key : List char32) : Option Nat :=
  (stg.entries.findIdx? fun e =>
    match e with
    | some en => en.key = key
    | none => false)

/-- Modelled from the spec: `storage_search` — read a lexeme from the stream
(recorded as `last_read`) and return its handle, or none (`SIZE_MAX`). -/
def storage_search (stg : storage_model) (io : io_state) :
    storage_model × io_state × Option Nat :=
  let (lexeme, io) := read_lexeme io
  let stg := { stg with last_read := lexeme }
  (stg, io, storage_find stg lexeme)

/-- Modelled from the spec: `storage_last_read`. -/
def storage_last_read (stg : storage_model) : List char32 := stg.last_read

/-- Modelled from the spec: `storage_add` — append a new entry under a key
given as a string; an existing key reports "not added" (none). -/
def storage_add (stg : storage_model) (key : List char32) :
    storage_model × Option Nat :=
  match storage_find stg key with
  | some _ => (stg, none)
  | none =>
    ({ stg with entries := stg.entries ++ [some { key := key, val := none, args := 0 }] },
      some stg.entries.length)

/-- Modelled from the spec: `storage_add_by_io` — read a lexeme from the
stream and add it; a duplicate reports `SIZE_MAX`. -/
def storage_add_by_io (stg : storage_model) (io : io_state) :
    storage_model × io_state × Option Nat :=
  let (lexeme, io) := read_lexeme io
  let stg := { stg with last_read := lexeme }
  let (stg, idx) := storage_add stg lexeme
  (stg, io, idx)

/-- Modelled from the spec: `storage_get_by_index` — the string payload
(NULL when the handle is `SIZE_MAX`, removed, or the payload is unset). -/
def storage_get_by_index (stg : storage_model) (idx : Option Nat) :
    Option (List char32) :=
  match idx with
  | some i =>
    match stg.entries.getD i none with
    | some en => en.val
    | none => none
  | none => none

/-- Modelled from the spec: `storage_set_by_index`. -/
def storage_set_by_index (stg : storage_model) (idx : Option Nat) (v : List char32) :
    storage_model :=
  match idx with
  | some i =>
    { stg with entries := stg.entries.modify (fun e =>
        match e with
        | some en => some { en with val := some v }
        | none => none) i }
  | none => stg

/-- Modelled from the spec: `storage_get_args_by_index`. -/
def storage_get_args_by_index (stg : storage_model) (i : Nat) : Nat :=
  match stg.entries.getD i none with
  | some en => en.args
  | none => 0

/-- Modelled from the spec: `storage_set_args_by_index`. -/
def storage_set_args_by_index (stg : storage_model) (i : Nat) (n : Nat) :
    storage_model :=
  { stg with entries := stg.entries.modify (fun e =>
      match e with
      | some en => some { en with args := n }
      | none => none) i }

/-- Modelled from the spec: `storage_remove_by_index` — silent on `SIZE_MAX`. -/
def storage_remove_by_index (stg : storage_model) (idx : Option Nat) : storage_model :=
  match idx with
  | some i => { stg with entries := stg.entries.set i none }
  | none => stg

/-- Modelled from the spec: `storage_get_index` — exact lookup by a key
string, without touching the stream. -/
def storage_get_index (stg : storage_model) (key : List char32) : Option Nat :=
  storage_find stg key

/-- The error kinds of `error.h` that this translation unit raises (payload
arguments of `macro_verror` carry only diagnostic text and are elided). -/
inductive error_t where
  | COMMENT_UNTERMINATED | STRING_UNTERMINATED
  | INCLUDE_DEPTH | INCLUDE_EXPECTS_FILENAME | INCLUDE_NO_SUCH_FILE
  | DIRECTIVE_INVALID | DIRECTIVE_NAME_NON
  | MACRO_NAME_FIRST_CHARACTER | MACRO_NAME_REDEFINE
  | CALL_DEPTH
  | ARGS_NON | ARGS_REQUIRES | ARGS_PASSED | ARGS_UNTERMINATED
  | ARGS_EXPECTED_BRACKET | ARGS_EXPECTED_NAME | ARGS_EXPECTED_COMMA | ARGS_DUPLICATE
  | HASH_ON_EDGE | HASH_NOT_FOLLOWED
  | CHARACTER_STRAY
deriving DecidableEq, Repr

/-- The warning kinds this translation unit raises. -/
inductive warning_t where
  | DIRECTIVE_LINE_SKIPED | DIRECTIVE_EXTRA_TOKENS | MACRO_NAME_UNDEFINED
deriving DecidableEq, Repr

/-- Modelled from the spec (§6, external `linker`): the include registry — a
list of (path, contents) headers.  The internal/external lookup distinction
resolves paths the same way in the model. -/
structure linker_model where
  headers : List (List char32 × List char32)
deriving DecidableEq, Repr

/-- Modelled from the spec: `linker_search_internal`. -/
def linker_search_internal (lk : linker_model) (path : List char32) : Option Nat :=
  lk.headers.findIdx? (fun h => h.1 = path)

/-- Modelled from the spec: `linker_search_external`. -/
def linker_search_external (lk : linker_model) (path : List char32) : Option Nat :=
  lk.headers.findIdx? (fun h => h.1 = path)

/-- Modelled from the spec: `linker_add_header` — open the resolved file as a
file-backed input. -/
def linker_add_header (lk : linker_model) (i : Nat) : io_state :=
  { text := ((lk.headers.getD i ([], [])).2), pos := 0, is_file := true, sink := none }

/-- `MAX_INCLUDE_DEPTH`. -/
def MAX_INCLUDE_DEPTH : Nat := 32

/-- `MAX_CALL_DAPTH` (spelling from the source). -/
def MAX_CALL_DAPTH : Nat := 256

/--
`struct parser` (named `parser_state` here): the preprocessor state.  The
location tracker (external `loc` module, spec §4.B) is modelled as a line
counter behind an optional pointer — `loc = none` is the `NULL` location used
while expanding memory buffers; `prev` is the saved invocation location.
Diagnostics are modelled as the lists `errs`/`warns` of raised kinds.
-/
structure parser_state where
  lk : linker_model
  stg : storage_model
  io : io_state
  prev : Option Nat
  loc : Option Nat
  include_depth : Nat
  call : Nat
  is_recovery_disabled : Bool
  is_line_required : Bool
  is_if_block : Bool
  was_error : Bool
  errs : List error_t
  warns : List warning_t
deriving DecidableEq, Repr

/-- Modelled from the spec (§4.B): `loc_copy` — snapshot the current location
(the caller never copies a `NULL` location in a reachable state; 0 stands in). -/
def loc_copy (l : Option Nat) : Nat := l.getD 0

/-- Modelled from the spec: `loc_search` — build the location of an input. -/
def loc_search (io : io_state) : Option Nat :=
  let _ := io
  some 0

/-- `*prs->loc = l` (no effect through a `NULL` location). -/
def set_loc (prs : parser_state) (l : Nat) : parser_state :=
  { prs with loc := prs.loc.map (fun _ => l) }

/-- Modelled from the spec: `loc_line_break` — advance the line counter. -/
def loc_line_break (prs : parser_state) : parser_state :=
  { prs with loc := prs.loc.map (· + 1) }

/-- Modelled from the spec: `loc_search_from` — recompute the diagnostic
column; no effect on the embedded state. -/
def loc_search_from (prs : parser_state) : parser_state := prs

/-- Modelled from the spec: `loc_update` — refresh the `#line` bookkeeping of
a file location; no effect on the embedded state. -/
def loc_update (prs : parser_state) : parser_state := prs

/-- Modelled from the spec: `loc_update_begin`. -/
def loc_update_begin (prs : parser_state) : parser_state := prs

/-- Modelled from the spec: `loc_update_end`. -/
def loc_update_end (prs : parser_state) : parser_state := prs

/-- `uni_scan_char(prs->io)` lifted to the parser state. -/
def scan_char (prs : parser_state) : char32 × parser_state :=
  let (c, io) := uni_scan_char prs.io
  (c, { prs with io := io })

/-- `uni_unscan_char(prs->io, c)`. -/
def unscan_char (prs : parser_state) (c : char32) : parser_state :=
  { prs with io := uni_unscan_char prs.io c }

/-- `uni_print_char(prs->io, c)`. -/
def put_char (prs : parser_state) (c : char32) : parser_state :=
  { prs with io := uni_print_char prs.io c }

/-- `uni_printf(prs->io, "%s", s)`. -/
def put_str (prs : parser_state) (s : List char32) : parser_state :=
  { prs with io := uni_print_str prs.io s }

/--
`parser_error`: when recovery is disabled and an error already occurred, the
message is suppressed; otherwise the kind is reported and `was_error` set.
-/
def parser_error (prs : parser_state) (num : error_t) : parser_state :=
  if prs.is_recovery_disabled ∧ prs.was_error then
    prs
  else
    { prs with errs := prs.errs ++ [num], was_error := true }

/--
`parser_warning`: when recovery is disabled the warning is suppressed
(unconditionally — unlike `parser_error` there is no `was_error` test);
otherwise the kind is reported.
-/
def parser_warning (prs : parser_state) (num : warning_t) : parser_state :=
  if prs.is_recovery_disabled then
    prs
  else
    { prs with warns := prs.warns ++ [num] }

/--
The loop of `skip_comment`: read to the end of the single-line comment,
echoing the line breaks of backslash-continued lines, and push the terminator
back.
-/
def skip_comment_loop (fuel : Nat) (prs : parser_state) (was_slash : Bool)
    (character : char32) : Option parser_state :=
  match fuel with
  | 0 => none
  | fuel + 1 =>
    if character ≠ cEOF ∧ (was_slash ∨ character ≠ chr '\n') then
      let prs :=
        if character = chr '\n' then put_char (loc_line_break prs) character else prs
      let was_slash := character = chr '\\' ∨ (was_slash ∧ character = chr '\r')
      let (character, prs) := scan_char prs
      skip_comment_loop fuel prs was_slash character
    else
      some (unscan_char prs character)

/-- `skip_comment`: skip a `//` comment (already consumed) to its line end. -/
def skip_comment (fuel : Nat) (prs : parser_state) : Option parser_state :=
  let (character, prs) := scan_char prs
  skip_comment_loop fuel prs false character

/--
The loop of `skip_string`: copy the string body to the output, tracking escape
backslashes; an unterminated string (newline without backslash, or `EOF`)
reports `STRING_UNTERMINATED`.  Returns the last character read.
-/
def skip_string_loop (fuel : Nat) (prs : parser_state) (quote : char32)
    (was_slash : Bool) (character : char32) : Option (parser_state × char32) :=
  match fuel with
  | 0 => none
  | fuel + 1 =>
    if was_slash ∨ character ≠ quote then
      let (character, prs) :=
        if character = chr '\r' then scan_char prs else (character, prs)
      let prs := if character = chr '\n' then loc_line_break prs else prs
      if character = cEOF ∨ (!was_slash ∧ character = chr '\n') then
        some (parser_error prs .STRING_UNTERMINATED, character)
      else
        let prs := put_char prs character
        let was_slash := !was_slash ∧ character = chr '\\'
        let (character, prs) := scan_char prs
        skip_string_loop fuel prs quote was_slash character
    else
      some (prs, character)

/-- `skip_string`: after the opening quote was read, copy the string content
to the output, stopping at (and consuming, without printing) the closing
quote. -/
def skip_string (fuel : Nat) (prs : parser_state) (quote : char32) :
    Option (parser_state × char32) :=
  let prs := unscan_char prs quote
  let _loc := loc_copy prs.loc
  let (_, prs) := scan_char prs
  let (character, prs) := scan_char prs
  skip_string_loop fuel prs quote false character

/--
The first loop of `skip_multi_comment`: scan the comment into the local
buffer `buf`; when `*/` arrives before a line break the saved comment is
flushed to the output verbatim (`some (inl …)`); otherwise the scan state is
handed to the removal phase (`some (inr …)`).
-/
def skip_multi_comment_first (fuel : Nat) (prs : parser_state) (buf : List char32)
    (character : char32) :
    Option (parser_state ⊕ (parser_state × Bool × char32)) :=
  match fuel with
  | 0 => none
  | fuel + 1 =>
    let was_star := character = chr '*'
    let (character, prs) := scan_char prs
    let buf := if character = cEOF then buf else buf ++ [character]
    if was_star ∧ character = chr '/' then
      some (.inl (put_str prs buf))
    else
      if character ≠ chr '\r' ∧ character ≠ chr '\n' ∧ character ≠ cEOF then
        skip_multi_comment_first fuel prs buf character
      else
        some (.inr (prs, was_star, character))

/--
The second loop of `skip_multi_comment`: a comment containing a line break is
dropped — only its line breaks are echoed — and the text after the last line
break inside the comment is replaced by spaces (tabs stay tabs).
-/
def skip_multi_comment_second (fuel : Nat) (prs : parser_state) (begin_pos : Nat)
    (was_star : Bool) (character : char32) : Option parser_state :=
  match fuel with
  | 0 => none
  | fuel + 1 =>
    if !was_star ∨ character ≠ chr '/' then
      if character = cEOF then
        some (parser_error prs .COMMENT_UNTERMINATED)
      else
        let (prs, begin_pos) :=
          if character = chr '\n' then
            (put_char (loc_line_break prs) character, in_get_position prs.io)
          else
            (prs, begin_pos)
        let was_star := character = chr '*'
        let (character, prs) := scan_char prs
        skip_multi_comment_second fuel prs begin_pos was_star character
    else
      -- replay the segment from the last line break, mapping everything but
      -- tabs to spaces (the source loop re-reads the input and prints)
      let end_pos := in_get_position prs.io
      let seg := (prs.io.text.drop begin_pos).take (end_pos - begin_pos)
      let prs := put_str prs (seg.map fun c => if c = chr '\t' then chr '\t' else chr ' ')
      some prs

/-- `skip_multi_comment`: after `/` and `*` were read, either keep a one-line
comment verbatim or remove a multi-line one. -/
def skip_multi_comment (fuel : Nat) (prs : parser_state) : Option parser_state := do
  let prs := unscan_char prs (chr '*')
  let prs := unscan_char prs (chr '/')
  let _loc := loc_copy prs.loc
  -- the two re-scanned characters go into the local buffer
  let (c1, prs) := scan_char prs
  let (c2, prs) := scan_char prs
  let buf := (if c1 = cEOF then [] else [c1]) ++ (if c2 = cEOF then [] else [c2])
  match ← skip_multi_comment_first fuel prs buf (chr '\x00') with
  | .inl prs => some prs
  | .inr (prs, was_star, character) =>
    skip_multi_comment_second fuel prs 0 was_star character

/--
The loop of `skip_until`: skip comments, spaces, tabs, backslash-newlines and
carriage returns up to the first significant character, which is pushed back
and returned.  When `fill` is unset the output is diverted into a dead buffer.
-/
def skip_until_loop (fuel : Nat) (prs : parser_state) : Option (parser_state × char32) :=
  match fuel with
  | 0 => none
  | fuel + 1 => do
    let (character, prs) := scan_char prs
    if character = chr '/' then
      let (c2, prs) := scan_char prs
      if c2 = chr '*' then
        let prs ← skip_multi_comment fuel prs
        skip_until_loop fuel prs
      else if c2 = chr '/' then
        let prs ← skip_comment fuel prs
        skip_until_loop fuel prs
      else
        let prs := unscan_char prs c2
        some (unscan_char prs (chr '/'), chr '/')
    else if character = chr '\\' then
      let (c2, prs) := scan_char prs
      let (c2, prs) := if c2 = chr '\r' then scan_char prs else (c2, prs)
      if c2 = chr '\n' then
        let prs := put_str prs (cs "\\\n")
        let prs := loc_line_break prs
        skip_until_loop fuel prs
      else
        let prs := unscan_char prs c2
        some (unscan_char prs (chr '\\'), chr '\\')
    else if character = chr ' ' ∨ character = chr '\t' then
      let prs := put_char prs character
      skip_until_loop fuel prs
    else if character = chr '\r' then
      let (c2, prs) := scan_char prs
      some (unscan_char prs c2, c2)
    else
      some (unscan_char prs character, character)

/-- `skip_until`. -/
def skip_until (fuel : Nat) (prs : parser_state) (fill : Bool) :
    Option (parser_state × char32) := do
  let saved_sink := prs.io.sink
  let prs := if fill then prs else { prs with io := { prs.io with sink := none } }
  let (prs, character) ← skip_until_loop fuel prs
  let prs := if fill then prs else { prs with io := { prs.io with sink := saved_sink } }
  some (prs, character)

/-- The loop of `skip_lines`. -/
def skip_lines_loop (fuel : Nat) (prs : parser_state) (character : char32) :
    Option (parser_state × char32) :=
  match fuel with
  | 0 => none
  | fuel + 1 => do
    if character = chr '\n' then
      let (_, prs) := scan_char prs
      let prs := loc_line_break prs
      let (prs, character) ← skip_until fuel prs false
      skip_lines_loop fuel prs character
    else
      some (prs, character)

/-- `skip_lines`: like `skip_until` without output, but also across line
breaks. -/
def skip_lines (fuel : Nat) (prs : parser_state) : Option (parser_state × char32) := do
  let (prs, character) ← skip_until fuel prs false
  skip_lines_loop fuel prs character

/-- `MASK_ARGUMENT`: `__ARG_<index>_<v>__`. -/
def mask_arg (index : Nat) (v : List char32) : List char32 :=
  cs ("__ARG_" ++ toString index ++ "_") ++ v ++ cs "__"

/-- `MASK_STRING`: `__STR_<index>_<v>__`. -/
def mask_str (index : Nat) (v : List char32) : List char32 :=
  cs ("__STR_" ++ toString index ++ "_") ++ v ++ cs "__"

/-- `MASK_TOKEN_PASTE`: `#__TKP_<index>_<v>__`. -/
def mask_tkp (index : Nat) (v : List char32) : List char32 :=
  cs ("#__TKP_" ++ toString index ++ "_") ++ v ++ cs "__"

/--
The stringizing loop of `parse_values` (lines 351–365 of the source) as a
function of the scanned text: a double quote is printed with a preceding
backslash; a backslash consumes the following character, and is doubled only
when that character is a double quote; a backslash at the very end of the text
is dropped (the loop prints the `EOF` sentinel, which produces nothing).
-/
def stringize_escape : List char32 → List char32
  | [] => []
  | c :: rest =>
    if c = chr '\\' then
      match rest with
      | [] => []
      | d :: rest2 =>
        (if d = chr '"' then cs "\\\\" else cs "\\")
          ++ (if d = chr '"' then cs "\\" else []) ++ [d] ++ stringize_escape rest2
    else
      (if c = chr '"' then cs "\\" else []) ++ [c] ++ stringize_escape rest

/--
The loop of `parse_hash`: gather leading whitespace of each line into the
attached buffer (reset whenever a fresh line is required); on the first
significant character restore the outer sink, flush the gathered whitespace
unless the character is `#`, and return it.
-/
def parse_hash_loop (fuel : Nat) (prs : parser_state) (outio : io_state) :
    Option (parser_state × io_state × char32) :=
  match fuel with
  | 0 => none
  | fuel + 1 => do
    let prs :=
      if prs.is_line_required then loc_update { prs with io := out_set_buffer prs.io }
      else prs
    let (prs, character) ← skip_until fuel prs true
    if character ≠ chr '\n' then
      let (mio, outio) := out_swap prs.io outio
      let prs := { prs with io := mio }
      let (prs, outio) :=
        if character ≠ chr '#' then
          let (buffer, outio) := out_extract_buffer outio
          (put_str prs buffer, outio)
        else
          (prs, outio)
      some ({ prs with is_line_required := false }, outio, character)
    else
      let (c, prs) := scan_char prs
      let prs := put_char prs c
      let prs := loc_line_break prs
      parse_hash_loop fuel prs outio

/-- `parse_hash`: swap the output into a local buffer and scan for the first
significant character of the next non-blank line. -/
def parse_hash (fuel : Nat) (prs : parser_state) (outio : io_state) :
    Option (parser_state × io_state × char32) :=
  let (mio, outio) := out_swap prs.io outio
  let prs := { prs with io := out_set_buffer mio }
  parse_hash_loop fuel prs outio

/--
`parse_directive`: recognise a directive head.  A `#` followed (possibly after
spaces) by a name is looked up among the keywords; an unknown directive
reports `DIRECTIVE_INVALID` (echoing the name without its first character, as
the source does) and a stray `#` reports `CHARACTER_STRAY`.  Returns the
keyword handle or none (`SIZE_MAX`).
-/
def parse_directive (fuel : Nat) (prs : parser_state) :
    Option (parser_state × Option Nat) :=
  match fuel with
  | 0 => none
  | fuel + 1 => do
    let outio := io_create
    let (prs, outio, ch) ← parse_hash fuel prs outio
    if ch ≠ chr '#' then
      some (prs, none)
    else
      let _l := loc_copy prs.loc
      let outio := uni_print_char outio (chr '#')
      let (stg, io, keyword) := storage_search prs.stg prs.io
      let prs := { prs with stg := stg, io := io }
      let (prs, outio, keyword) ←
        if (storage_last_read prs.stg).getD 1 0 = 0 then
          -- the lexeme was a lone "#": skip spaces and read the name apart
          let (mio, outio) := out_swap prs.io outio
          let prs := { prs with io := mio }
          let (prs, c) ← skip_until fuel prs true
          let (prs, keyword) :=
            if utf8_is_letter c then
              let (stg, io, _) := storage_search prs.stg prs.io
              let prs := { prs with stg := stg, io := io }
              let buffer := cs "#" ++ storage_last_read prs.stg
              (prs, storage_get_index prs.stg buffer)
            else
              (prs, keyword)
          let (mio, outio) := out_swap prs.io outio
          some ({ prs with io := mio }, outio, keyword)
        else
          some (prs, outio, keyword)
      if !kw_is_correct keyword then
        let (buffer, _) := out_extract_buffer outio
        let prs := put_str prs buffer
        let directive := storage_last_read prs.stg
        if utf8_is_letter (utf8_convert (directive.drop 1)) then
          let prs := parser_error prs .DIRECTIVE_INVALID
          some (put_str prs (directive.drop 1), none)
        else
          let prs := parser_error prs .CHARACTER_STRAY
          some ({ prs with io := uni_unscan prs.io (directive.drop 1) }, none)
      else
        some (prs, keyword)

/-- `parse_location`: push the directive lexeme (and its `#`) back, snapshot
the location, and restore the position. -/
def parse_location (prs : parser_state) : parser_state × Nat :=
  let position := in_get_position prs.io
  let prs := { prs with io := uni_unscan prs.io (storage_last_read prs.stg) }
  let (c, prs) := scan_char prs
  let prs := if c = chr '#' then unscan_char prs (chr '#') else prs
  let l := loc_copy prs.loc
  ({ prs with io := in_set_position prs.io position }, l)

/-- `parse_name`: require a letter-starting macro name after the directive. -/
def parse_name (fuel : Nat) (prs : parser_state) : Option (parser_state × Bool) := do
  let (prs, _l) := parse_location prs
  let (prs, character) ← skip_until fuel prs false
  if utf8_is_letter character then
    some (prs, true)
  else if character = chr '\n' then
    some (parser_error prs .DIRECTIVE_NAME_NON, false)
  else
    let prs := loc_search_from prs
    some (parser_error prs .MACRO_NAME_FIRST_CHARACTER, false)

/--
The `for` loop of `parse_args`: comma-separated parameter names up to the
closing bracket; each name is added to the (local) parameter table with its
position as payload.  Any malformed input reports its error and yields
`SIZE_MAX` (none).
-/
def parse_args_loop (fuel : Nat) (prs : parser_state) (i : Nat) (character : char32) :
    Option (parser_state × Option Nat) :=
  match fuel with
  | 0 => none
  | fuel + 1 => do
    if character = chr ')' then
      let (_, prs) := scan_char prs
      some (prs, some i)
    else if character = chr '\n' ∨ character = cEOF then
      some (parser_error prs .ARGS_EXPECTED_BRACKET, none)
    else
      let prs := loc_search_from prs
      if !utf8_is_letter character then
        some (parser_error prs .ARGS_EXPECTED_NAME, none)
      else
        let (stg, io, index) := storage_add_by_io prs.stg prs.io
        let prs := { prs with stg := stg, io := io }
        if index = none then
          some (parser_error prs .ARGS_DUPLICATE, none)
        else
          let prs := { prs with stg := storage_set_by_index prs.stg index (cs (toString i)) }
          let (prs, character) ← skip_until fuel prs false
          if character = chr ',' then
            let (_, prs) := scan_char prs
            let (prs, character) ← skip_until fuel prs false
            parse_args_loop fuel prs (i + 1) character
          else if character ≠ chr ')' ∧ character ≠ chr '\n' ∧ character ≠ cEOF then
            let prs := loc_search_from prs
            some (parser_error prs .ARGS_EXPECTED_COMMA, none)
          else
            parse_args_loop fuel prs (i + 1) character

/-- `parse_args`: a parameter list exists only when `(` immediately follows
the macro name (no intervening space — the position test); otherwise the
arity is 0 and nothing is consumed. -/
def parse_args (fuel : Nat) (prs : parser_state) : Option (parser_state × Option Nat) := do
  let position := in_get_position prs.io
  let (prs, c) ← skip_until fuel prs false
  if c ≠ chr '(' ∨ position ≠ in_get_position prs.io then
    some (prs, some 0)
  else
    let _l := loc_copy prs.loc
    let (_, prs) := scan_char prs
    let (prs, character) ← skip_until fuel prs false
    parse_args_loop fuel prs 0 character

/--
`parse_operator`: a `#` inside a macro body.  `##` encodes a token-paste
placeholder for the following parameter; a single `#` encodes a stringize
placeholder; `##` at the end of the body and `#`/`##` not followed by a
parameter are errors.
-/
def parse_operator (fuel : Nat) (prs : parser_state) (index : Nat) (was_space : Bool) :
    Option (parser_state × Bool) := do
  let _l := loc_copy prs.loc
  let (_, prs) := scan_char prs
  let (character, prs) := scan_char prs
  if character = chr '#' then
    let (prs, character) ← skip_until fuel prs false
    if character = chr '\n' then
      some (parser_error prs .HASH_ON_EDGE, false)
    else
      let (stg, io, found) := storage_search prs.stg prs.io
      let prs := { prs with stg := stg, io := io }
      match storage_get_by_index prs.stg found with
      | none => some (parser_error prs .HASH_NOT_FOLLOWED, false)
      | some value => some (put_str prs (mask_tkp index value), true)
  else
    let prs := unscan_char prs character
    let (prs, _) ← skip_until fuel prs false
    let (stg, io, found) := storage_search prs.stg prs.io
    let prs := { prs with stg := stg, io := io }
    match storage_get_by_index prs.stg found with
    | none => some (parser_error prs .HASH_NOT_FOLLOWED, false)
    | some value =>
      some (put_str prs ((if was_space then cs " " else []) ++ mask_str index value), true)

/--
The loop of `parse_content`: encode the macro body up to the logical end of
line — parameters become argument placeholders, `#`/`##` go through
`parse_operator`, strings are copied transparently, and single spacing is
restored between tokens (the `EOF`-print trick of the source).  `false` means
the body failed to parse.
-/
def parse_content_loop (fuel : Nat) (prs : parser_state) (index : Nat) (position : Nat)
    (character : char32) : Option (parser_state × Bool) :=
  match fuel with
  | 0 => none
  | fuel + 1 => do
    if character ≠ chr '\n' ∧ character ≠ cEOF then
      if character = chr '#' then
        let (prs, ok) ← parse_operator fuel prs index (in_get_position prs.io ≠ position)
        if !ok then
          some (prs, false)
        else
          let position := in_get_position prs.io
          let (prs, character) ← skip_until fuel prs false
          parse_content_loop fuel prs index position character
      else
        let prs := put_char prs (if in_get_position prs.io = position then cEOF else chr ' ')
        if utf8_is_letter character then
          let (stg, io, found) := storage_search prs.stg prs.io
          let prs := { prs with stg := stg, io := io }
          let prs :=
            match storage_get_by_index prs.stg found with
            | some value => put_str prs (mask_arg index value)
            | none => put_str prs (storage_last_read prs.stg)
          let position := in_get_position prs.io
          let (prs, character) ← skip_until fuel prs false
          parse_content_loop fuel prs index position character
        else if character = chr '\'' ∨ character = chr '"' then
          let (c, prs) := scan_char prs
          let prs := put_char prs c
          let (prs, last) ← skip_string fuel prs character
          if last ≠ character then
            some (prs, false)
          else
            let prs := put_char prs character
            let position := in_get_position prs.io
            let (prs, character) ← skip_until fuel prs false
            parse_content_loop fuel prs index position character
        else
          let (c, prs) := scan_char prs
          let prs := put_char prs c
          let position := in_get_position prs.io
          let (prs, character) ← skip_until fuel prs false
          parse_content_loop fuel prs index position character
    else
      some (prs, true)

/-- `parse_content`: encode the body into a fresh buffer; `none` (`NULL`)
when the body fails to parse. -/
def parse_content (fuel : Nat) (prs : parser_state) (index : Nat) :
    Option (parser_state × Option (List char32)) := do
  let saved_sink := prs.io.sink
  let prs := { prs with io := out_set_buffer prs.io }
  let (prs, character) ← skip_until fuel prs false
  let position := in_get_position prs.io
  let (prs, ok) ← parse_content_loop fuel prs index position character
  if ok then
    let (buffer, io) := out_extract_buffer prs.io
    some ({ prs with io := { io with sink := saved_sink } }, some buffer)
  else
    some ({ prs with io := { prs.io with sink := saved_sink } }, none)

/-- The shared tail of `parse_context`: parse the body; a parsed body is
stored under the macro handle of the enclosing table, a failed one removes the
handle. -/
def parse_context_finish (fuel : Nat) (prs : parser_state) (origin : storage_model)
    (index : Nat) : Option parser_state := do
  let (prs, value) ← parse_content fuel prs index
  match value with
  | some v => some { prs with stg := storage_set_by_index origin (some index) v }
  | none => some { prs with stg := storage_remove_by_index origin (some index) }

/--
`parse_context`: parse the parameter list and body of `#define`/`#set` under a
temporary parameter table.  A failed parameter list, a `##` at the start of
the body, or a failed body leaves the macro name **removed** from the
enclosing table.
-/
def parse_context (fuel : Nat) (prs : parser_state) (index : Nat) :
    Option parser_state := do
  let origin := prs.stg
  let prs := { prs with stg := storage_create }
  let (prs, args) ← parse_args fuel prs
  match args with
  | none => some { prs with stg := storage_remove_by_index origin (some index) }
  | some args_n =>
    let origin := storage_set_args_by_index origin index args_n
    let (prs, c) ← skip_until fuel prs false
    if c = chr '#' then
      let prs := loc_search_from prs
      let (_, prs) := scan_char prs
      let (character, prs) := scan_char prs
      if character = chr '#' then
        let prs := parser_error prs .HASH_ON_EDGE
        some { prs with stg := storage_remove_by_index origin (some index) }
      else
        let prs := unscan_char prs character
        let prs := unscan_char prs (chr '#')
        parse_context_finish fuel prs origin index
    else
      parse_context_finish fuel prs origin index

mutual

/--
`parser_preprocess`: swap the output of `in` with the current io, process the
whole input through the directive/expansion loop, and swap back.  Returns the
restored parser together with the final state of `in` (whose sink carries what
the swap left there).  `fuel` bounds the recursive nesting (macro expansion,
inclusion); `none` means the bound was hit.
-/
def parser_preprocess (fuel : Nat) (prs : parser_state) (inp : io_state) :
    Option (parser_state × io_state) :=
  match fuel with
  | 0 => none
  | fuel + 1 => do
    let (parked, inp) := out_swap prs.io inp
    let prs := { prs with io := inp, is_line_required := true }
    let saved_loc := prs.loc
    let prs := { prs with loc := loc_search prs.io }
    let prs ← preprocess_loop fuel prs (chr '\x00')
    let cur := prs.io
    let (parked, cur) := out_swap parked cur
    some ({ prs with io := parked, loc := saved_loc }, cur)

/-- The directive loop of `parser_preprocess`: recognised directives are
processed and the loop continues; everything else falls through to
`parse_until`, until the end of input. -/
def preprocess_loop (fuel : Nat) (prs : parser_state) (character : char32) :
    Option parser_state :=
  match fuel with
  | 0 => none
  | fuel + 1 => do
    if character ≠ cEOF then
      let (prs, keyword) ← parse_directive fuel prs
      match keyword with
      | some k =>
        if k = KW_LINE then
          let prs ← parse_line fuel prs
          preprocess_loop fuel prs character
        else if k = KW_INCLUDE then
          let prs ← parse_include fuel prs
          preprocess_loop fuel prs character
        else if k = KW_DEFINE then
          let prs ← parse_define fuel prs
          preprocess_loop fuel prs character
        else if k = KW_SET then
          let prs ← parse_set fuel prs
          preprocess_loop fuel prs character
        else if k = KW_UNDEF then
          let prs ← parse_undef fuel prs
          preprocess_loop fuel prs character
        else
          -- reserved directives (`eval`, conditionals, user blocks) fall
          -- through to the plain-text path
          let (prs, character) ← parse_until fuel prs
          preprocess_loop fuel prs character
      | none =>
        let (prs, character) ← parse_until fuel prs
        preprocess_loop fuel prs character
    else
      some prs

/-- The loop of `parse_until`. -/
def parse_until_loop (fuel : Nat) (prs : parser_state) (position : Nat) :
    Option (parser_state × char32) :=
  match fuel with
  | 0 => none
  | fuel + 1 => do
    let (prs, character) ← skip_until fuel prs true
    let prs ←
      if utf8_is_letter character ∧ out_is_correct prs.io then
        parce_identifier fuel prs
      else if character = chr '#' then
        let prs := loc_search_from prs
        let prs := parser_error prs .CHARACTER_STRAY
        let (c, prs) := scan_char prs
        some (put_char prs c)
      else if character = chr '\'' ∨ character = chr '"' then do
        let (c, prs) := scan_char prs
        let prs := put_char prs c
        let (prs, last) ← skip_string fuel prs character
        some (put_char prs last)
      else
        let (c, prs) := scan_char prs
        some (put_char prs c)
    if character ≠ chr '\n' ∧ character ≠ cEOF then
      parse_until_loop fuel prs position
    else
      let prs :=
        if character = cEOF ∧ prs.prev = none ∧ in_get_position prs.io ≠ position then
          put_char prs (chr '\n')
        else
          prs
      some (loc_line_break prs, character)

/-- `parse_until`: process plain text (with macro expansion) to the end of the
current line or of the input; a nonempty top-level tail without final newline
receives one. -/
def parse_until (fuel : Nat) (prs : parser_state) : Option (parser_state × char32) :=
  match fuel with
  | 0 => none
  | fuel + 1 => parse_until_loop fuel prs (in_get_position prs.io)

/--
`parce_identifier` (spelling from the source): look the identifier up; absent
identifiers pass through.  At call depth `MAX_CALL_DAPTH` or beyond the
`CALL_DEPTH` error is reported and the identifier passes through unexpanded;
below the bound the macro is expanded through `parse_replacement` (wrapped,
for file-backed inputs, in the location markers).
-/
def parce_identifier (fuel : Nat) (prs : parser_state) : Option parser_state :=
  match fuel with
  | 0 => none
  | fuel + 1 => do
    let begin_pos := in_get_position prs.io
    let (stg, io, index) := storage_search prs.stg prs.io
    let prs := { prs with stg := stg, io := io }
    match index with
    | none => some (put_str prs (storage_last_read prs.stg))
    | some index =>
      if prs.call ≥ MAX_CALL_DAPTH then
        let prs := loc_search_from prs
        let prs := parser_error prs .CALL_DEPTH
        some (put_str prs (storage_last_read prs.stg))
      else
        let prs := { prs with call := prs.call + 1 }
        let prs ←
          if in_is_file prs.io then do
            let end_pos := in_get_position prs.io
            let prs := { prs with io := in_set_position prs.io begin_pos }
            let l := loc_copy prs.loc
            let prs := { prs with prev := some l }
            let prs := put_char prs (chr '\n')
            let prs := loc_update_begin prs
            let prs := { prs with io := in_set_position prs.io end_pos }
            let prs ← parse_replacement fuel prs index
            let prs := { prs with prev := none }
            let prs := put_char prs (chr '\n')
            some (loc_update_end prs)
          else
            parse_replacement fuel prs index
        some { prs with call := prs.call - 1 }

/--
`parse_replacement`: expand the macro at `index`.  Arity 0: an immediately
following `()` pair (across spaces, comments and line breaks) is consumed,
otherwise the position and location are restored; either way the stored body
is preprocessed.  Arity > 0: require `(`, collect the arguments, and — on an
exact arity match — substitute through `parse_observation`.
-/
def parse_replacement (fuel : Nat) (prs : parser_state) (index : Nat) :
    Option parser_state :=
  match fuel with
  | 0 => none
  | fuel + 1 => do
    let expected := storage_get_args_by_index prs.stg index
    let position := in_get_position prs.io
    let l := loc_copy prs.loc
    if expected = 0 then do
      let (prs, c1) ← skip_lines fuel prs
      let prs ←
        if c1 ≠ chr '(' then
          some (set_loc { prs with io := in_set_position prs.io position } l)
        else
          let (c2, prs) := scan_char prs
          if c2 ≠ chr '(' then
            some (set_loc { prs with io := in_set_position prs.io position } l)
          else do
            let (prs, c3) ← skip_lines fuel prs
            if c3 ≠ chr ')' then
              some (set_loc { prs with io := in_set_position prs.io position } l)
            else
              let (c4, prs) := scan_char prs
              if c4 ≠ chr ')' then
                some (set_loc { prs with io := in_set_position prs.io position } l)
              else
                some prs
      let body := (storage_get_by_index prs.stg (some index)).getD []
      let vio : io_state := { text := body, pos := 0, is_file := false, sink := none }
      let (prs, _) ← parser_preprocess fuel prs vio
      some prs
    else do
      let (prs, c1) ← skip_lines fuel prs
      if c1 ≠ chr '(' then
        let prs := set_loc { prs with io := in_set_position prs.io position } l
        some (parser_error prs .ARGS_NON)
      else
        let stg0 := storage_create
        let (prs, stg0, actual) ← parse_brackets fuel prs index stg0
        let prs ←
          if actual = some expected then
            parse_observation fuel prs index stg0
          else if actual ≠ none then
            let prs := loc_search_from prs
            some (parser_error prs
              (if expected > actual.getD 0 then .ARGS_REQUIRES else .ARGS_PASSED))
          else
            some prs
        let (_, prs) := scan_char prs
        some prs

/-- The inner loop of `parse_brackets`: one bracket-balanced argument, built
with single-space normalization, strings scanned transparently; `EOF` reports
`ARGS_UNTERMINATED` and poisons the count. -/
def parse_brackets_inner (fuel : Nat) (prs : parser_state) (arg : Option Nat)
    (brackets : Int) (position : Nat) (character : char32) :
    Option (parser_state × Option Nat × char32) :=
  match fuel with
  | 0 => none
  | fuel + 1 => do
    if brackets ≠ 0 ∨ (character ≠ chr ',' ∧ character ≠ chr ')' ∧ character ≠ cEOF) then
      let prs := put_str prs (if in_get_position prs.io ≠ position then cs " " else [])
      let (c, prs) := scan_char prs
      let prs := put_char prs c
      let (prs, arg) ←
        if character = chr '\'' ∨ character = chr '"' then do
          let (prs, last) ← skip_string fuel prs character
          let arg := if last = character then arg else none
          some (put_char prs character, arg)
        else
          some (prs, arg)
      let brackets := brackets +
        (if character ≠ chr '(' then (if character = chr ')' then (-1 : Int) else 0) else 1)
      let position := in_get_position prs.io
      let (prs, character) ← skip_lines fuel prs
      let (prs, arg) :=
        if character = cEOF then (parser_error prs .ARGS_UNTERMINATED, none)
        else (prs, arg)
      parse_brackets_inner fuel prs arg brackets position character
    else
      some (prs, arg, character)

/-- The outer loop of `parse_brackets`: arguments separated by top-level
commas, each handed to `parse_values` under its position. -/
def parse_brackets_outer (fuel : Nat) (prs : parser_state) (index : Nat)
    (stg : storage_model) (arg : Option Nat) (character : char32) :
    Option (parser_state × storage_model × Option Nat) :=
  match fuel with
  | 0 => none
  | fuel + 1 => do
    if character ≠ chr ')' ∧ character ≠ cEOF then
      let (_, prs) := scan_char prs
      let (prs, character) ← skip_lines fuel prs
      let position := in_get_position prs.io
      let prs := { prs with io := out_set_buffer prs.io }
      let (prs, arg, character) ← parse_brackets_inner fuel prs arg 0 position character
      match arg with
      | some n =>
        let (buffer, io) := out_extract_buffer prs.io
        let prs := { prs with io := io }
        let (prs, stg) ← parse_values fuel prs index stg buffer n
        parse_brackets_outer fuel prs index stg (some (n + 1)) character
      | none =>
        parse_brackets_outer fuel prs index stg none character
    else
      some (prs, stg, arg)

/-- `parse_brackets`: collect the actual arguments of a macro invocation into
the temporary table `stg`; the count is `SIZE_MAX` (none) after any failure. -/
def parse_brackets (fuel : Nat) (prs : parser_state) (index : Nat)
    (stg : storage_model) : Option (parser_state × storage_model × Option Nat) :=
  match fuel with
  | 0 => none
  | fuel + 1 => do
    let _l := loc_copy prs.loc
    let saved_sink := prs.io.sink
    let prs := { prs with io := { prs.io with sink := none } }
    let (prs, stg, arg) ← parse_brackets_outer fuel prs index stg (some 0) (chr '\x00')
    let prs := { prs with io := { prs.io with sink := saved_sink } }
    some (prs, stg, arg)

/--
`parse_values`: store the three encoded forms of one macro argument under its
mask keys — the *raw* text, the *expanded* text (the raw text preprocessed in
a nested frame), and the *stringized* text.  The stringizing loop re-reads the
io input, which still holds the **raw** argument (`in_set_position(&io, 0)`),
so the stringized form quotes the raw text via `stringize_escape`.
-/
def parse_values (fuel : Nat) (prs : parser_state) (index : Nat) (stg : storage_model)
    (value : List char32) (arg : Nat) : Option (parser_state × storage_model) :=
  match fuel with
  | 0 => none
  | fuel + 1 => do
    let (stg, i1) := storage_add stg (mask_tkp index (cs (toString arg)))
    let stg := storage_set_by_index stg i1 value
    let vio : io_state := { text := value, pos := 0, is_file := false, sink := some [] }
    let (mio, vio) := out_swap prs.io vio
    let prs := { prs with io := mio }
    let (prs, vio) ← parser_preprocess fuel prs vio
    let (mio, vio) := out_swap prs.io vio
    let prs := { prs with io := mio }
    let (buffer, _vio) := out_extract_buffer vio
    let (stg, i2) := storage_add stg (mask_arg index (cs (toString arg)))
    let stg := storage_set_by_index stg i2 buffer
    let strv := [chr '"'] ++ stringize_escape value ++ [chr '"']
    let (stg, i3) := storage_add stg (mask_str index (cs (toString arg)))
    let stg := storage_set_by_index stg i3 strv
    some (prs, stg)

/-- The copy loop of `parse_observation`: stream the encoded body, replacing
mask lexemes by their encoded forms from the argument table `stg` and passing
everything else through. -/
def parse_observation_loop (fuel : Nat) (prs : parser_state) (stg : storage_model) :
    Option (parser_state × storage_model) :=
  match fuel with
  | 0 => none
  | fuel + 1 => do
    let (prs, ch) ← skip_until fuel prs true
    if ch ≠ cEOF then
      if ch = chr '#' ∨ utf8_is_letter ch then
        let (stg, io, current) := storage_search stg prs.io
        let prs := { prs with io := io }
        let prs := put_str prs
          (if kw_is_correct current ∨ current = none then storage_last_read stg
           else (storage_get_by_index stg current).getD [])
        parse_observation_loop fuel prs stg
      else if ch = chr '\'' ∨ ch = chr '"' then
        let (c, prs) := scan_char prs
        let prs := put_char prs c
        let (prs, last) ← skip_string fuel prs ch
        let prs := put_char prs last
        parse_observation_loop fuel prs stg
      else
        let (c, prs) := scan_char prs
        let prs := put_char prs c
        parse_observation_loop fuel prs stg
    else
      some (prs, stg)

/-- `parse_observation`: substitute the argument forms into the encoded body
(with a `NULL` location, so diagnostics use the invocation location), then
re-preprocess the substituted text in a nested frame. -/
def parse_observation (fuel : Nat) (prs : parser_state) (index : Nat)
    (stg : storage_model) : Option parser_state :=
  match fuel with
  | 0 => none
  | fuel + 1 => do
    let saved_io := prs.io
    let body := (storage_get_by_index prs.stg (some index)).getD []
    let vio : io_state := { text := body, pos := 0, is_file := false, sink := some [] }
    let prs := { prs with io := vio }
    let saved_loc := prs.loc
    let prs := { prs with loc := none }
    let (prs, _stg) ← parse_observation_loop fuel prs stg
    let prs := { prs with loc := saved_loc }
    let (buffer, _) := out_extract_buffer prs.io
    let prs := { prs with io := saved_io }
    let vio2 : io_state := { text := buffer, pos := 0, is_file := false, sink := none }
    let (prs, _) ← parser_preprocess fuel prs vio2
    some prs

/-- `skip_directive`: run the main line loop with disabled recovery, a set
error flag, and a discarded output; then require a fresh line. -/
def skip_directive (fuel : Nat) (prs : parser_state) : Option parser_state :=
  match fuel with
  | 0 => none
  | fuel + 1 => do
    let is_recovery_disabled := prs.is_recovery_disabled
    let was_error := prs.was_error
    let prs := { prs with is_recovery_disabled := true, was_error := true }
    let saved_sink := prs.io.sink
    let prs := { prs with io := { prs.io with sink := none } }
    let (prs, _) ← parse_until fuel prs
    let prs := { prs with io := { prs.io with sink := saved_sink } }
    let prs := { prs with was_error := was_error }
    let prs := { prs with is_recovery_disabled := is_recovery_disabled }
    some { prs with is_line_required := true }

/-- `parse_line`: reserved — warn and skip. -/
def parse_line (fuel : Nat) (prs : parser_state) : Option parser_state :=
  match fuel with
  | 0 => none
  | fuel + 1 => do
    let (prs, _l) := parse_location prs
    let prs := parser_warning prs .DIRECTIVE_LINE_SKIPED
    skip_directive fuel prs

/-- `parse_include_path`: read the quoted path, resolve it through the linker,
and preprocess the header in place. -/
def parse_include_path (fuel : Nat) (prs : parser_state) (quote : char32) :
    Option parser_state :=
  match fuel with
  | 0 => none
  | fuel + 1 => do
    let _l := loc_copy prs.loc
    let (_, prs) := scan_char prs
    let saved_sink := prs.io.sink
    let prs := { prs with io := out_set_buffer prs.io }
    let (prs, character) ← skip_string fuel prs quote
    let (path, io) := out_extract_buffer prs.io
    let prs := { prs with io := { io with sink := saved_sink } }
    if character ≠ quote then
      some (parser_error prs .INCLUDE_EXPECTS_FILENAME)
    else
      let index := if quote = chr '"' then linker_search_internal prs.lk path
        else linker_search_external prs.lk path
      match index with
      | none => some (parser_error prs .INCLUDE_NO_SUCH_FILE)
      | some idx => do
        let (prs, c) ← skip_until fuel prs false
        let prs :=
          if c ≠ chr '\n' then parser_warning (loc_search_from prs) .DIRECTIVE_EXTRA_TOKENS
          else prs
        let header := linker_add_header prs.lk idx
        let (prs, _) ← parser_preprocess fuel prs header
        some prs

/-- `parse_include`: depth-capped inclusion. -/
def parse_include (fuel : Nat) (prs : parser_state) : Option parser_state :=
  match fuel with
  | 0 => none
  | fuel + 1 => do
    let (prs, _l) := parse_location prs
    if prs.include_depth ≥ MAX_INCLUDE_DEPTH then
      let prs := parser_error prs .INCLUDE_DEPTH
      skip_directive fuel prs
    else
      let prs := { prs with include_depth := prs.include_depth + 1 }
      let (prs, character) ← skip_until fuel prs false
      let prs ←
        if character = chr '<' then
          parse_include_path fuel prs (chr '>')
        else if character = chr '"' then
          parse_include_path fuel prs character
        else if character = chr '\n' then
          some (parser_error prs .INCLUDE_EXPECTS_FILENAME)
        else
          some (parser_error (loc_search_from prs) .INCLUDE_EXPECTS_FILENAME)
      let prs := { prs with include_depth := prs.include_depth - 1 }
      skip_directive fuel prs

/-- `parse_define`: a letter-starting fresh name, then its context; a
redefinition reports `MACRO_NAME_REDEFINE`. -/
def parse_define (fuel : Nat) (prs : parser_state) : Option parser_state :=
  match fuel with
  | 0 => none
  | fuel + 1 => do
    let (prs, ok) ← parse_name fuel prs
    let prs ←
      if ok then
        let prs := loc_search_from prs
        let (stg, io, index) := storage_add_by_io prs.stg prs.io
        let prs := { prs with stg := stg, io := io }
        match index with
        | none => some (parser_error prs .MACRO_NAME_REDEFINE)
        | some idx => parse_context fuel prs idx
      else
        some prs
    skip_directive fuel prs

/-- `parse_set`: like `parse_define`, but an existing name is redefined and an
absent one warned about and added. -/
def parse_set (fuel : Nat) (prs : parser_state) : Option parser_state :=
  match fuel with
  | 0 => none
  | fuel + 1 => do
    let (prs, ok) ← parse_name fuel prs
    let prs ←
      if ok then do
        let prs := loc_search_from prs
        let position := in_get_position prs.io
        let (stg, io, index0) := storage_search prs.stg prs.io
        let prs := { prs with stg := stg, io := io }
        let (prs, index) :=
          match index0 with
          | none =>
            let prs := parser_warning prs .MACRO_NAME_UNDEFINED
            let prs := { prs with io := in_set_position prs.io position }
            let (stg, io, idx) := storage_add_by_io prs.stg prs.io
            ({ prs with stg := stg, io := io }, idx)
          | some i => (prs, some i)
        -- adding an absent name always succeeds, so the handle is present
        parse_context fuel prs (index.getD 0)
      else
        some prs
    skip_directive fuel prs

/-- `parse_undef`: remove the name; silent when absent. -/
def parse_undef (fuel : Nat) (prs : parser_state) : Option parser_state :=
  match fuel with
  | 0 => none
  | fuel + 1 => do
    let (prs, ok) ← parse_name fuel prs
    let prs ←
      if ok then
        let (stg, io, idx) := storage_search prs.stg prs.io
        some { prs with stg := storage_remove_by_index stg idx, io := io }
      else
        some prs
    skip_directive fuel prs

end

/-- A parser over a given symbol table and input text, writing to a fresh
output buffer — the state `parser_create` builds before preprocessing starts
(the source file is file-backed). -/
def parser_start (stg : storage_model) : parser_state :=
  { lk := { headers := [] }, stg := stg,
    io := { text := [], pos := 0, is_file := false, sink := some [] },
    prev := none, loc := none, include_depth := 0, call := 0,
    is_recovery_disabled := false, is_line_required := false, is_if_block := false,
    was_error := false, errs := [], warns := [] }

/-- A file-backed source input. -/
def source_input (text : List char32) : io_state :=
  { text := text, pos := 0, is_file := true, sink := none }

end Preproc

/-! # Theorems -/

namespace Mips

/-- A minimal syntax table for concrete runs. -/
def demo_sx : syntax_model :=
  { out := "", identTypes := [], identSpellings := [], identLocals := [], errors := 0 }

/-- A codegen state for concrete runs: empty output, all registers free. -/
def demo_info : information := initial_info demo_sx

/-- A register-kind rvalue marked `from_lvalue` (backed by the variable in
`$t0`). -/
def demo_rv_from_lvalue : rvalue :=
  { kind := .RVALUE_KIND_REGISTER, type := .integer, from_lvalue := true,
    val := .reg_of R_T0 }

/--
**C5.** `free_rvalue` hands its register to `free_register` exactly when the
rvalue is register-kind and not `from_lvalue` — in every other case (constants,
void rvalues, and in particular rvalues marked `from_lvalue`) the state is
returned unchanged; and `free_register` is a no-op on non-temporary registers
and on temporaries whose busy bit is already clear.
-/
theorem claim_C5_free_rvalue_iff :
    (∀ (info : information) (rval : rvalue),
      ¬(rval.kind = .RVALUE_KIND_REGISTER ∧ rval.from_lvalue = false) →
      free_rvalue info rval = info) ∧
    (∀ (info : information) (rval : rvalue),
      rval.kind = .RVALUE_KIND_REGISTER → rval.from_lvalue = false →
      free_rvalue info rval = free_register info rval.reg_num) ∧
    (∀ (info : information) (reg : item_t),
      ¬(R_T0 ≤ reg ∧ reg ≤ R_T7) → ¬(R_T8 ≤ reg ∧ reg ≤ R_T9) →
      ¬(R_FT0 ≤ reg ∧ reg ≤ R_FT11) →
      free_register info reg = info) ∧
    (∀ (info : information) (reg : item_t),
      R_T0 ≤ reg ∧ reg ≤ R_T7 →
      info.registers.getD (reg - R_T0).toNat false = false →
      free_register info reg = info) ∧
    (∀ (info : information) (reg : item_t),
      R_T8 ≤ reg ∧ reg ≤ R_T9 →
      info.registers.getD ((reg - R_T8).toNat + 8) false = false →
      free_register info reg = info) ∧
    (∀ (info : information) (reg : item_t),
      R_FT0 ≤ reg ∧ reg ≤ R_FT11 →
      info.registers.getD ((reg - R_FT0).toNat + 10) false = false →
      free_register info reg = info) := by
  refine ⟨?_, ?_, ?_, ?_, ?_, ?_⟩
  · intro info rval h
    simp [free_rvalue, h]
  · intro info rval h1 h2
    simp [free_rvalue, h1, h2]
  · intro info reg h1 h2 h3
    simp [free_register, h1, h2, h3]
  · intro info reg h1 h2
    simp only [List.getD_eq_getElem?_getD] at h2
    simp [free_register, h1, h2]
  · intro info reg h1 h2
    have hn : ¬(R_T0 ≤ reg ∧ reg ≤ R_T7) := by
      simp only [R_T0, R_T7, R_T8, R_T9] at h1 ⊢
      exact fun hc => absurd (le_trans h1.1 hc.2) (by norm_num)
    simp only [List.getD_eq_getElem?_getD] at h2
    simp [free_register, hn, h1, h2]
  · intro info reg h1 h2
    have hn1 : ¬(R_T0 ≤ reg ∧ reg ≤ R_T7) := by
      simp only [R_T0, R_T7, R_FT0, R_FT11] at h1 ⊢
      exact fun hc => absurd (le_trans h1.1 hc.2) (by norm_num)
    have hn2 : ¬(R_T8 ≤ reg ∧ reg ≤ R_T9) := by
      simp only [R_T8, R_T9, R_FT0, R_FT11] at h1 ⊢
      exact fun hc => absurd (le_trans h1.1 hc.2) (by norm_num)
    simp only [List.getD_eq_getElem?_getD] at h2
    simp [free_register, hn1, hn2, h1, h2]

/-- Witness for **C5**: a `from_lvalue` rvalue is not freed; freeing the
non-temporary `$sp` and the already-free `$t3` leaves the state unchanged. -/
theorem claim_C5_witness :
    free_rvalue demo_info demo_rv_from_lvalue = demo_info ∧
    free_register demo_info R_SP = demo_info ∧
    free_register demo_info R_T3 = demo_info :=
  ⟨claim_C5_free_rvalue_iff.1 demo_info demo_rv_from_lvalue (by decide),
   claim_C5_free_rvalue_iff.2.2.1 demo_info R_SP (by decide) (by decide) (by decide),
   claim_C5_free_rvalue_iff.2.2.2.1 demo_info R_T3 (by decide) (by decide)⟩

end Mips

namespace Preproc

/-- A parser state with recovery disabled and a prior error recorded. -/
def demo_prs_suppressed : parser_state :=
  { parser_start storage_create with is_recovery_disabled := true, was_error := true }

/-- A parser state with recovery disabled and no prior error. -/
def demo_prs_fresh : parser_state :=
  { parser_start storage_create with is_recovery_disabled := true, was_error := false }

/--
**C10.** With `is_recovery_disabled` set, `parser_warning` emits nothing at
all, whatever the value of `was_error`; `parser_error`, by contrast, is
suppressed under disabled recovery only once `was_error` has been set — the
first error still goes out (and sets the flag).
-/
theorem claim_C10_warning_vs_error_suppression :
    (∀ (prs : parser_state) (num : warning_t),
      prs.is_recovery_disabled = true → parser_warning prs num = prs) ∧
    (∀ (prs : parser_state) (num : error_t),
      prs.is_recovery_disabled = true → prs.was_error = true →
      parser_error prs num = prs) ∧
    (∀ (prs : parser_state) (num : error_t),
      prs.was_error = false →
      parser_error prs num = { prs with errs := prs.errs ++ [num], was_error := true }) := by
  refine ⟨?_, ?_, ?_⟩
  · intro prs num h
    simp [parser_warning, h]
  · intro prs num h1 h2
    simp [parser_error, h1, h2]
  · intro prs num h
    simp [parser_error, h]

/-- Witness for **C10**: with recovery disabled, a warning vanishes both with
and without a prior error, while a first error is still recorded and a later
one is not. -/
theorem claim_C10_witness :
    parser_warning demo_prs_suppressed .DIRECTIVE_LINE_SKIPED = demo_prs_suppressed ∧
    parser_warning demo_prs_fresh .DIRECTIVE_LINE_SKIPED = demo_prs_fresh ∧
    parser_error demo_prs_suppressed .CALL_DEPTH = demo_prs_suppressed ∧
    parser_error demo_prs_fresh .CALL_DEPTH =
      { demo_prs_fresh with errs := demo_prs_fresh.errs ++ [.CALL_DEPTH],
                            was_error := true } :=
  ⟨claim_C10_warning_vs_error_suppression.1 demo_prs_suppressed _ (by decide),
   claim_C10_warning_vs_error_suppression.1 demo_prs_fresh _ (by decide),
   claim_C10_warning_vs_error_suppression.2.1 demo_prs_suppressed _ (by decide) (by decide),
   claim_C10_warning_vs_error_suppression.2.2 demo_prs_fresh _ (by decide)⟩

end Preproc

namespace Mips

/--
**C7.** `emit_variable_declaration` hands the node to `emit_array_declaration`
exactly when `type_is_array` is **false** for the declared identifier (the
inverted guard of the source); when the type *is* an array, only the optional
initializer is evaluated and stored — in particular, an array declaration
without initializer emits no code at all beyond the displacement-table entry.
-/
theorem claim_C7_variable_declaration_guard :
    (∀ (fuel : Nat) (info : information) (nd : var_decl),
      type_is_array (ident_get_type info.sx (declaration_variable_get_id nd)) = true →
      declaration_variable_has_initializer nd = false →
      emit_variable_declaration fuel info nd =
        (displacements_add info (declaration_variable_get_id nd)).1 ∧
      (emit_variable_declaration fuel info nd).sx.out = info.sx.out) ∧
    (∀ (fuel : Nat) (info : information) (nd : var_decl) (e : expr),
      type_is_array (ident_get_type info.sx (declaration_variable_get_id nd)) = true →
      nd.initializer = some e →
      emit_variable_declaration fuel info nd =
        (let p := displacements_add info (declaration_variable_get_id nd)
         let q := emit_expression p.1 e
         let r := emit_store_of_rvalue fuel q.1 q.2 p.2
         free_rvalue r.1 q.2)) ∧
    (∀ (fuel : Nat) (info : information) (nd : var_decl),
      type_is_array (ident_get_type info.sx (declaration_variable_get_id nd)) = false →
      emit_variable_declaration fuel info nd =
        emit_array_declaration fuel (displacements_add info (declaration_variable_get_id nd)).1 nd) := by
  refine ⟨?_, ?_, ?_⟩
  · intro fuel info nd h1 h2
    simp only [declaration_variable_get_id] at h1 ⊢
    constructor
    · simp [emit_variable_declaration, declaration_variable_get_id, displacements_add, h1, h2]
    · simp [emit_variable_declaration, declaration_variable_get_id, displacements_add, h1, h2]
  · intro fuel info nd e h1 h2
    simp only [declaration_variable_get_id] at h1 ⊢
    have h3 : declaration_variable_has_initializer nd = true := by
      simp [declaration_variable_has_initializer, h2]
    have h4 : declaration_variable_get_initializer nd = e := by
      simp [declaration_variable_get_initializer, h2]
    simp only [emit_variable_declaration, displacements_add, declaration_variable_get_id,
      h1, h3, h4, if_true]
  · intro fuel info nd h1
    simp only [declaration_variable_get_id] at h1 ⊢
    simp [emit_variable_declaration, declaration_variable_get_id, displacements_add, h1]

/-- A syntax table with identifier 0 of type `int[]` and identifier 1 of type
`int`, both local. -/
def c7_sx : syntax_model :=
  { out := "", identTypes := [(0, .array .integer), (1, .integer)],
    identSpellings := [(0, "a"), (1, "x")], identLocals := [0, 1], errors := 0 }

/-- Witness for **C7**: for `int a[]` (array type, no initializer) the emitter
only records the displacement, and for `int x` (not an array) it runs
`emit_array_declaration`. -/
theorem claim_C7_witness :
    (emit_variable_declaration 4 (initial_info c7_sx)
        { id := 0, bounds := [.empty_bound], initializer := none } =
      (displacements_add (initial_info c7_sx) 0).1 ∧
     (emit_variable_declaration 4 (initial_info c7_sx)
        { id := 0, bounds := [.empty_bound], initializer := none }).sx.out =
      (initial_info c7_sx).sx.out) ∧
    emit_variable_declaration 4 (initial_info c7_sx)
        { id := 1, bounds := [], initializer := none } =
      emit_array_declaration 4 (displacements_add (initial_info c7_sx) 1).1
        { id := 1, bounds := [], initializer := none } :=
  ⟨claim_C7_variable_declaration_guard.1 4 (initial_info c7_sx)
      { id := 0, bounds := [.empty_bound], initializer := none } (by decide) (by decide),
   claim_C7_variable_declaration_guard.2.2 4 (initial_info c7_sx)
      { id := 1, bounds := [], initializer := none } (by decide)⟩

/-- Does the second list begin the first? -/
def starts_with : List Char → List Char → Bool
  | _, [] => true
  | [], _ :: _ => false
  | h :: hs, n :: ns => h == n && starts_with hs ns

/-- Does `needle` occur inside `hay`? -/
def contains_from (needle : List Char) : List Char → Bool
  | [] => starts_with [] needle
  | c :: rest => starts_with (c :: rest) needle || contains_from needle rest

/-- Substring test, for stating facts about emitted assembly text. -/
def str_contains (hay needle : String) : Bool :=
  contains_from needle.toList hay.toList

/-- A syntax table with identifier 0 bound to a parameterless `int` function
named `f`. -/
def c1_sx : syntax_model :=
  { out := "", identTypes := [(0, .func .integer [])], identSpellings := [(0, "f")],
    identLocals := [], errors := 0 }

/-- The function node `int f(void) { return; }` — identifier 0, no
parameters, a body consisting of one plain return. -/
def c1_fd : func_decl :=
  { id := 0, params := [], body := .compound [.returnS none] }

/-- The assembly text emitted for `c1_fd`. -/
def c1_out : String :=
  (emit_function_definition 4 (initial_info c1_sx) c1_fd).sx.out

set_option maxRecDepth 10000 in
/--
**C1.** Evaluating the emitter on a function with identifier 0 whose body is a
single `return`: the return statement emits `j FUNCEND0`, but no label
`FUNCEND0:` is ever declared — the epilogue is declared under the label
`END0:` instead (`emit_function_definition` builds its terminal label with
kind `L_END`, while `emit_return_statement` branches to kind `L_FUNCEND`).
The emitted function therefore jumps to an undefined label, contradicting the
specified contract that returns transfer control to the emitted epilogue.
-/
theorem claim_C1_funcend_label_mismatch :
    str_contains c1_out "\tj FUNCEND0\n" = true ∧
    str_contains c1_out "FUNCEND0:" = false ∧
    str_contains c1_out "END0:\n" = true := by
  refine ⟨by decide, by decide, by decide⟩

/-! ## Frame lemmas for the cached loop labels (claim C6)

Only the `while` / `do-while` / `for` arms of `emit_statement` ever assign
`label_continue` or `label_break`, and both assign-and-restore; every other
generator function leaves the two fields untouched.  The `lbl_` lemmas below
establish this field preservation bottom-up. -/

theorem lbl_wr (info : information) (s : String) :
    (wr info s).label_continue = info.label_continue ∧
    (wr info s).label_break = info.label_break := ⟨rfl, rfl⟩

theorem lbl_get_register (info : information) :
    (get_register info).1.label_continue = info.label_continue ∧
    (get_register info).1.label_break = info.label_break := ⟨rfl, rfl⟩

theorem lbl_get_float_register (info : information) :
    (get_float_register info).1.label_continue = info.label_continue ∧
    (get_float_register info).1.label_break = info.label_break := ⟨rfl, rfl⟩

theorem lbl_displacements_add (info : information) (identifier : Nat) :
    (displacements_add info identifier).1.label_continue = info.label_continue ∧
    (displacements_add info identifier).1.label_break = info.label_break := ⟨rfl, rfl⟩

theorem lbl_free_register (info : information) (reg : item_t) :
    (free_register info reg).label_continue = info.label_continue ∧
    (free_register info reg).label_break = info.label_break := by
  simp only [free_register]
  split_ifs <;> exact ⟨rfl, rfl⟩

theorem lbl_free_rvalue (info : information) (rval : rvalue) :
    (free_rvalue info rval).label_continue = info.label_continue ∧
    (free_rvalue info rval).label_break = info.label_break := by
  simp only [free_rvalue]
  split_ifs with h
  · exact lbl_free_register info rval.reg_num
  · exact ⟨rfl, rfl⟩

theorem lbl_emit_label (info : information) (lbl : label) :
    (emit_label info lbl).label_continue = info.label_continue ∧
    (emit_label info lbl).label_break = info.label_break := ⟨rfl, rfl⟩

theorem lbl_emit_label_declaration (info : information) (lbl : label) :
    (emit_label_declaration info lbl).label_continue = info.label_continue ∧
    (emit_label_declaration info lbl).label_break = info.label_break := ⟨rfl, rfl⟩

theorem lbl_emit_unconditional_branch (info : information) (lbl : label) :
    (emit_unconditional_branch info lbl).label_continue = info.label_continue ∧
    (emit_unconditional_branch info lbl).label_break = info.label_break := ⟨rfl, rfl⟩

theorem lbl_emit_conditional_branch (info : information) (value : rvalue) (lbl : label) :
    (emit_conditional_branch info value lbl).label_continue = info.label_continue ∧
    (emit_conditional_branch info value lbl).label_break = info.label_break := by
  simp only [emit_conditional_branch]
  split_ifs <;> exact ⟨rfl, rfl⟩

theorem lbl_emit_store_rvalue_to_rvalue (info : information) (destination source : rvalue) :
    (emit_store_rvalue_to_rvalue info destination source).label_continue =
      info.label_continue ∧
    (emit_store_rvalue_to_rvalue info destination source).label_break =
      info.label_break := by
  simp only [emit_store_rvalue_to_rvalue]
  repeat' split
  all_goals exact ⟨rfl, rfl⟩

theorem lbl_emit_load_of_lvalue (info : information) (lval : lvalue) :
    (emit_load_of_lvalue info lval).1.label_continue = info.label_continue ∧
    (emit_load_of_lvalue info lval).1.label_break = info.label_break := by
  simp only [emit_load_of_lvalue]
  split_ifs <;>
    simp [get_register, get_float_register, lbl_free_register, wr]

theorem lbl_emit_lvalue (info : information) (nd : expr) :
    (emit_lvalue info nd).1.label_continue = info.label_continue ∧
    (emit_lvalue info nd).1.label_break = info.label_break := by
  simp only [emit_lvalue]
  split <;> exact ⟨rfl, rfl⟩

theorem lbl_emit_expression (info : information) (nd : expr) :
    (emit_expression info nd).1.label_continue = info.label_continue ∧
    (emit_expression info nd).1.label_break = info.label_break := by
  simp only [emit_expression]
  split_ifs with h
  · rcases hl : emit_lvalue info nd with ⟨i, l⟩
    have hi := lbl_emit_lvalue info nd
    simp only [hl] at hi ⊢
    have hload := lbl_emit_load_of_lvalue i l
    exact ⟨hload.1.trans hi.1, hload.2.trans hi.2⟩
  · split <;> exact ⟨rfl, rfl⟩

theorem lbl_emit_void_expression (info : information) (nd : expr) :
    (emit_void_expression info nd).1.label_continue = info.label_continue ∧
    (emit_void_expression info nd).1.label_break = info.label_break := by
  simp only [emit_void_expression]
  split_ifs with h
  · rcases hl : emit_lvalue info nd with ⟨i, l⟩
    have hi := lbl_emit_lvalue info nd
    simp only [hl] at hi ⊢
    exact hi
  · rcases he : emit_expression info nd with ⟨i, v⟩
    have hi := lbl_emit_expression info nd
    simp only [he] at hi ⊢
    exact ⟨(lbl_free_rvalue i v).1.trans hi.1, (lbl_free_rvalue i v).2.trans hi.2⟩

theorem lbl_emit_boolean_expression (info : information) (nd : expr) :
    (emit_boolean_expression info nd).1.label_continue = info.label_continue ∧
    (emit_boolean_expression info nd).1.label_break = info.label_break := by
  simp only [emit_boolean_expression]
  rcases he : emit_expression info nd with ⟨i, v⟩
  have hi := lbl_emit_expression info nd
  simp only [he] at hi ⊢
  split_ifs with h1 h2 <;>
    first
      | exact hi
      | exact ⟨(lbl_free_rvalue _ v).1.trans hi.1, (lbl_free_rvalue _ v).2.trans hi.2⟩

theorem lbl_foldl {a : Type} (g : information → a → information) (l : List a)
    (i : information) (lc lb : label)
    (hg : ∀ (j : information) (x : a),
      (g j x).label_continue = j.label_continue ∧ (g j x).label_break = j.label_break)
    (hi : i.label_continue = lc ∧ i.label_break = lb) :
    (l.foldl g i).label_continue = lc ∧ (l.foldl g i).label_break = lb := by
  induction l generalizing i with
  | nil => exact hi
  | cons x t iht =>
    rw [List.foldl_cons]
    exact iht (g i x) ⟨(hg i x).1.trans hi.1, (hg i x).2.trans hi.2⟩

theorem lbl_emit_store_of_rvalue :
    ∀ (fuel : Nat) (info : information) (rval : rvalue) (lval : lvalue),
      (emit_store_of_rvalue fuel info rval lval).1.label_continue = info.label_continue ∧
      (emit_store_of_rvalue fuel info rval lval).1.label_break = info.label_break := by
  intro fuel
  induction fuel with
  | zero => intro info rval lval; exact ⟨rfl, rfl⟩
  | succ fuel ih =>
    intro info rval lval
    simp only [emit_store_of_rvalue]
    split_ifs <;>
      simp [apply_ite, lbl_wr, lbl_emit_load_of_lvalue, lbl_emit_store_rvalue_to_rvalue,
        lbl_get_register, lbl_get_float_register, lbl_free_rvalue, ih]
    all_goals
      refine lbl_foldl _ _ _ _ _ ?_ ?_
    all_goals
      first
        | (intro j k
           exact ⟨((lbl_free_rvalue _ _).1.trans ((ih _ _ _).1.trans (lbl_emit_load_of_lvalue _ _).1)),
                  ((lbl_free_rvalue _ _).2.trans ((ih _ _ _).2.trans (lbl_emit_load_of_lvalue _ _).2))⟩)
        | simp [apply_ite, lbl_wr, lbl_emit_store_rvalue_to_rvalue, lbl_get_register,
            lbl_get_float_register]

theorem lbl_to_code_2R (info : information) (ins : mips_instruction_t) (r1 r2 : item_t) :
    (to_code_2R info ins r1 r2).label_continue = info.label_continue ∧
    (to_code_2R info ins r1 r2).label_break = info.label_break := ⟨rfl, rfl⟩

theorem lbl_to_code_2R_I (info : information) (ins : mips_instruction_t)
    (r1 r2 imm : item_t) :
    (to_code_2R_I info ins r1 r2 imm).label_continue = info.label_continue ∧
    (to_code_2R_I info ins r1 r2 imm).label_break = info.label_break := ⟨rfl, rfl⟩

set_option maxHeartbeats 8000000 in
theorem lbl_emit_binary_operation :
    ∀ (fuel : Nat) (info : information) (rval1 rval2 : rvalue) (operation : binary_t),
      (emit_binary_operation fuel info rval1 rval2 operation).1.label_continue =
        info.label_continue ∧
      (emit_binary_operation fuel info rval1 rval2 operation).1.label_break =
        info.label_break := by
  intro fuel
  induction fuel with
  | zero => intro info rval1 rval2 operation; exact ⟨rfl, rfl⟩
  | succ fuel ih =>
    intro info rval1 rval2 operation
    cases operation <;>
      (simp only [emit_binary_operation]
       split_ifs <;>
         simp [apply_ite, lbl_wr, lbl_free_rvalue, lbl_get_register,
           lbl_get_float_register, lbl_emit_store_rvalue_to_rvalue, lbl_emit_label,
           lbl_emit_label_declaration, lbl_emit_unconditional_branch, ih])

/--
Loop-label preservation for the dimensions loop of `emit_array_declaration`,
by structural recursion on the walked type.
-/
def lbl_dims_pf (fuel : Nat) (nd : var_decl) :
    ∀ (t : ruc_type) (dims : Nat) (info : information),
      (emit_array_declaration_dims fuel nd info t dims).label_continue =
        info.label_continue ∧
      (emit_array_declaration_dims fuel nd info t dims).label_break = info.label_break
  | .array elem, dims, info => by
    have ih := lbl_dims_pf fuel nd elem (dims + 1)
    simp only [emit_array_declaration_dims]
    split_ifs <;>
      simp [apply_ite, ih, lbl_wr, lbl_free_rvalue, lbl_emit_store_of_rvalue,
        lbl_emit_binary_operation, lbl_emit_expression, lbl_get_register,
        lbl_get_float_register, lbl_emit_store_rvalue_to_rvalue]
  | .boolean, _, _ => ⟨rfl, rfl⟩
  | .character, _, _ => ⟨rfl, rfl⟩
  | .integer, _, _ => ⟨rfl, rfl⟩
  | .floating, _, _ => ⟨rfl, rfl⟩
  | .structure_ _, _, _ => ⟨rfl, rfl⟩
  | .pointer _, _, _ => ⟨rfl, rfl⟩
  | .func _ _, _, _ => ⟨rfl, rfl⟩
  | .void, _, _ => ⟨rfl, rfl⟩

theorem lbl_emit_array_declaration (fuel : Nat) (info : information) (nd : var_decl) :
    (emit_array_declaration fuel info nd).label_continue = info.label_continue ∧
    (emit_array_declaration fuel info nd).label_break = info.label_break := by
  simp only [emit_array_declaration]
  split_ifs <;>
    simp [apply_ite, lbl_wr, lbl_emit_store_of_rvalue, lbl_dims_pf, lbl_to_code_2R_I,
      lbl_emit_load_of_lvalue, lbl_emit_expression, lbl_free_rvalue]

theorem lbl_emit_variable_declaration (fuel : Nat) (info : information) (nd : var_decl) :
    (emit_variable_declaration fuel info nd).label_continue = info.label_continue ∧
    (emit_variable_declaration fuel info nd).label_break = info.label_break := by
  simp only [emit_variable_declaration]
  split_ifs <;>
    simp [apply_ite, lbl_displacements_add, lbl_emit_expression, lbl_emit_store_of_rvalue,
      lbl_free_rvalue, lbl_emit_array_declaration]

theorem lbl_emit_return_statement (fuel : Nat) (info : information) (e : Option expr) :
    (emit_return_statement fuel info e).label_continue = info.label_continue ∧
    (emit_return_statement fuel info e).label_break = info.label_break := by
  cases e with
  | none => exact ⟨rfl, rfl⟩
  | some ex =>
    simp only [emit_return_statement]
    simp [apply_ite, lbl_emit_expression, lbl_emit_store_of_rvalue, lbl_free_rvalue,
      lbl_emit_unconditional_branch, lbl_wr]

mutual

/--
Loop-label preservation for `emit_statement`: every statement, the three loop
forms included, leaves `label_continue` and `label_break` as it found them.
-/
def lbl_stmt_pf (fuel : Nat) :
    ∀ (s : stmt) (info : information),
      (emit_statement fuel info s).label_continue = info.label_continue ∧
      (emit_statement fuel info s).label_break = info.label_break
  | .declS decls, info => by
    refine lbl_foldl _ _ _ _ _ ?_ ⟨rfl, rfl⟩
    intro j d
    exact lbl_emit_variable_declaration fuel j d
  | .nullS, _ => ⟨rfl, rfl⟩
  | .exprS e, info => lbl_emit_void_expression info e
  | .compound substmts, info => lbl_stmt_list_pf fuel substmts info
  | .ifS cond then_s else_s, info => by
    cases else_s with
    | none =>
      exact ⟨(lbl_stmt_pf fuel then_s _).1.trans
          ((lbl_emit_conditional_branch _ _ _).1.trans (lbl_emit_boolean_expression info cond).1),
        (lbl_stmt_pf fuel then_s _).2.trans
          ((lbl_emit_conditional_branch _ _ _).2.trans (lbl_emit_boolean_expression info cond).2)⟩
    | some els =>
      exact ⟨(lbl_stmt_pf fuel els _).1.trans ((lbl_stmt_pf fuel then_s _).1.trans
          ((lbl_emit_conditional_branch _ _ _).1.trans (lbl_emit_boolean_expression info cond).1)),
        (lbl_stmt_pf fuel els _).2.trans ((lbl_stmt_pf fuel then_s _).2.trans
          ((lbl_emit_conditional_branch _ _ _).2.trans (lbl_emit_boolean_expression info cond).2))⟩
  | .whileS _ _, _ => ⟨rfl, rfl⟩
  | .doS _ _, _ => ⟨rfl, rfl⟩
  | .forS ini _ _ _, info => lbl_stmt_opt_pf fuel ini info
  | .continueS, _ => ⟨rfl, rfl⟩
  | .breakS, _ => ⟨rfl, rfl⟩
  | .returnS e, info => lbl_emit_return_statement fuel info e

/-- Loop-label preservation for the compound-statement loop. -/
def lbl_stmt_list_pf (fuel : Nat) :
    ∀ (l : List stmt) (info : information),
      (emit_statement_list fuel info l).label_continue = info.label_continue ∧
      (emit_statement_list fuel info l).label_break = info.label_break
  | [], _ => ⟨rfl, rfl⟩
  | s :: rest, info =>
    ⟨(lbl_stmt_list_pf fuel rest _).1.trans (lbl_stmt_pf fuel s info).1,
     (lbl_stmt_list_pf fuel rest _).2.trans (lbl_stmt_pf fuel s info).2⟩

/-- Loop-label preservation for an optional sub-statement. -/
def lbl_stmt_opt_pf (fuel : Nat) :
    ∀ (o : Option stmt) (info : information),
      (emit_statement_opt fuel info o).label_continue = info.label_continue ∧
      (emit_statement_opt fuel info o).label_break = info.label_break
  | none, _ => ⟨rfl, rfl⟩
  | some s, info => lbl_stmt_pf fuel s info

end


/--
**C6.** Emitting a `while`, `do-while` or `for` statement leaves the cached
`label_continue` and `label_break` fields of the generator state equal to
their values before the statement (they are saved on entry and restored on
exit), and a `continue` (resp. `break`) statement changes the state only by
appending an unconditional `j` jump to the currently cached `label_continue`
(resp. `label_break`) to the output (plus the terminal newline every
statement prints).
-/
theorem claim_C6_loop_label_save_restore :
    ∀ (fuel : Nat) (info : information) (c : expr) (b : stmt)
      (ini : Option stmt) (co inc : Option expr),
      (emit_statement fuel info (.whileS c b)).label_continue = info.label_continue ∧
      (emit_statement fuel info (.whileS c b)).label_break = info.label_break ∧
      (emit_statement fuel info (.doS b c)).label_continue = info.label_continue ∧
      (emit_statement fuel info (.doS b c)).label_break = info.label_break ∧
      (emit_statement fuel info (.forS ini co inc b)).label_continue = info.label_continue ∧
      (emit_statement fuel info (.forS ini co inc b)).label_break = info.label_break ∧
      emit_statement fuel info .continueS =
        { info with sx := { info.sx with
            out := info.sx.out ++ "\tj " ++ label_to_text info.label_continue
              ++ "\n" ++ "\n" } } ∧
      emit_statement fuel info .breakS =
        { info with sx := { info.sx with
            out := info.sx.out ++ "\tj " ++ label_to_text info.label_break
              ++ "\n" ++ "\n" } } :=
  fun fuel info _ _ ini _ _ =>
    ⟨rfl, rfl, rfl, rfl, (lbl_stmt_opt_pf fuel ini info).1,
     (lbl_stmt_opt_pf fuel ini info).2, rfl, rfl⟩

/--
**C8.** The materialize-constant guard of `emit_binary_operation` — which
lists `BIN_DIV` twice — is equivalent to the guard with the second `BIN_DIV`
occurrence removed: for every fuel, state, pair of input rvalues and
operation, the emitter and its repaired copy produce identical output and an
identical resulting rvalue.
-/
theorem claim_C8_second_div_redundant :
    ∀ (fuel : Nat) (info : information) (rval1 rval2 : rvalue) (operation : binary_t),
      emit_binary_operation fuel info rval1 rval2 operation =
        emit_binary_operation_nodup fuel info rval1 rval2 operation := by
  intro fuel
  induction fuel with
  | zero => intro info rval1 rval2 operation; rfl
  | succ fuel ih =>
    intro info rval1 rval2 operation
    have hg : (operation = .BIN_SUB ∨ operation = .BIN_DIV ∨ operation = .BIN_MUL ∨
        operation = .BIN_REM ∨ operation = .BIN_DIV)
        = (operation = .BIN_SUB ∨ operation = .BIN_DIV ∨ operation = .BIN_MUL ∨
        operation = .BIN_REM) := by
      apply propext
      constructor
      · rintro (h | h | h | h | h) <;> simp [h]
      · rintro (h | h | h | h) <;> simp [h]
    simp only [emit_binary_operation, emit_binary_operation_nodup, ih, hg]

end Mips

end RuC
